import Mathlib

/-!
Verification of the stream-relay / SSE token-extractor core of the
Capstone-Generator repository.  The definitions below are a shallow
embedding of `src/lib/sse.ts` (class `SSEParser`) and
`src/app/api/generate/route.ts` (`validatePrompt`, `fetchWithRetry`,
`POST`), modelling JavaScript strings as Lean `String`, JS exceptions as
`Except`, and `JSON.parse` as an executable JSON parser with JavaScript
truthiness and property-access semantics.
-/

/-! ## JavaScript string primitives -/

/-- The whitespace characters recognised by JavaScript `String.prototype.trim`
(the ASCII ones plus NBSP and the BOM; exotic Unicode spaces are omitted as
they cannot occur in the protocol). -/
def jsWsChar (c : Char) : Bool :=
  c == ' ' || c == '\t' || c == '\n' || c == '\r' || c == '\x0b' ||
  c == '\x0c' || c == '\u00A0' || c == '\uFEFF'

/-- Trim on a character list: drop leading and trailing whitespace. -/
def jsTrimList (l : List Char) : List Char :=
  ((l.dropWhile jsWsChar).reverse.dropWhile jsWsChar).reverse

/-- JavaScript `s.trim()`. -/
def jsTrim (s : String) : String :=
  String.mk (jsTrimList s.data)

/-- Pointwise check that the second list is an initial run of the first. -/
def startsWithL : List Char → List Char → Bool
  | _, [] => true
  | [], _ :: _ => false
  | c :: cs, p :: ps => c == p && startsWithL cs ps

/-- JavaScript `s.startsWith(pre)`. -/
def jsStarts (s pre : String) : Bool :=
  startsWithL s.data pre.data

/-- JavaScript `s.slice(n)` for a nonnegative `n`. -/
def strDrop (s : String) (n : Nat) : String :=
  String.mk (s.data.drop n)

/-- JavaScript `buffer.split('\n')` on the character level: always returns at
least one segment; a trailing newline yields a trailing empty segment. -/
def splitNlAux : List Char → List (List Char)
  | [] => [[]]
  | c :: cs =>
    if c = '\n' then [] :: splitNlAux cs
    else
      match splitNlAux cs with
      | [] => [[c]]
      | l :: ls => (c :: l) :: ls

/-- JavaScript `s.split('\n')`. -/
def splitNl (s : String) : List String :=
  (splitNlAux s.data).map String.mk

/-- Fused view of `split('\n')` followed by `pop()`: the complete lines and
the trailing (possibly incomplete) segment. -/
def splitLines : List Char → List (List Char) × List Char
  | [] => ([], [])
  | c :: cs =>
    let r := splitLines cs
    if c = '\n' then ([] :: r.1, r.2)
    else
      match r.1 with
      | [] => ([], c :: r.2)
      | l :: ls => ((c :: l) :: ls, r.2)

/-- Concatenation of a list of strings (JS `chunks.join('')`). -/
def strConc : List String → String
  | [] => ""
  | s :: rest => s ++ strConc rest

/-! ## A model of `JSON.parse`

JavaScript numbers are represented by their source lexeme: the claims only
ever need to know whether a number is zero (for truthiness), which is
decidable from the lexeme. -/

inductive Json where
  | null : Json
  | bool (b : Bool) : Json
  | num (lexeme : String) : Json
  | str (s : String) : Json
  | arr (elems : List Json) : Json
  | obj (fields : List (String × Json)) : Json

/-- JSON insignificant whitespace (RFC 8259 / `JSON.parse`). -/
def jsonWs (c : Char) : Bool :=
  c == ' ' || c == '\t' || c == '\n' || c == '\r'

def skipWs (cs : List Char) : List Char :=
  cs.dropWhile jsonWs

def isHexDigitC (c : Char) : Bool :=
  c.isDigit || ('a' ≤ c && c ≤ 'f') || ('A' ≤ c && c ≤ 'F')

def hexVal (c : Char) : Nat :=
  if c.isDigit then c.toNat - '0'.toNat
  else if 'a' ≤ c then c.toNat - 'a'.toNat + 10
  else c.toNat - 'A'.toNat + 10

/-- Body of a JSON string literal after the opening quote; returns the decoded
string and the input after the closing quote. -/
def parseStrAux : List Char → List Char → Option (String × List Char)
  | acc, '"' :: rest => some (String.mk acc.reverse, rest)
  | acc, '\\' :: '"' :: rest => parseStrAux ('"' :: acc) rest
  | acc, '\\' :: '\\' :: rest => parseStrAux ('\\' :: acc) rest
  | acc, '\\' :: '/' :: rest => parseStrAux ('/' :: acc) rest
  | acc, '\\' :: 'b' :: rest => parseStrAux ('\x08' :: acc) rest
  | acc, '\\' :: 'f' :: rest => parseStrAux ('\x0c' :: acc) rest
  | acc, '\\' :: 'n' :: rest => parseStrAux ('\n' :: acc) rest
  | acc, '\\' :: 'r' :: rest => parseStrAux ('\r' :: acc) rest
  | acc, '\\' :: 't' :: rest => parseStrAux ('\t' :: acc) rest
  | acc, '\\' :: 'u' :: h1 :: h2 :: h3 :: h4 :: rest =>
    if isHexDigitC h1 && isHexDigitC h2 && isHexDigitC h3 && isHexDigitC h4 then
      parseStrAux
        (Char.ofNat (hexVal h1 * 4096 + hexVal h2 * 256 + hexVal h3 * 16 + hexVal h4) :: acc)
        rest
    else none
  | _, '\\' :: _ => none
  | acc, c :: rest => if c.toNat < 32 then none else parseStrAux (c :: acc) rest
  | _, [] => none

/-- Exponent digits of a JSON number literal. -/
def parseNumExpDigits (lex : List Char) (cs : List Char) : Option (Json × List Char) :=
  let ds := cs.takeWhile Char.isDigit
  if ds = [] then none
  else some (.num (String.mk (lex ++ ds)), cs.dropWhile Char.isDigit)

/-- Optional exponent sign of a JSON number literal. -/
def parseNumExpSgn (lex : List Char) (cs : List Char) : Option (Json × List Char) :=
  match cs with
  | '+' :: r => parseNumExpDigits (lex ++ ['+']) r
  | '-' :: r => parseNumExpDigits (lex ++ ['-']) r
  | _ => parseNumExpDigits lex cs

/-- Optional exponent of a JSON number literal. -/
def parseNumExp (lex : List Char) (cs : List Char) : Option (Json × List Char) :=
  match cs with
  | 'e' :: r => parseNumExpSgn (lex ++ ['e']) r
  | 'E' :: r => parseNumExpSgn (lex ++ ['E']) r
  | _ => some (.num (String.mk lex), cs)

/-- Optional fraction of a JSON number literal. -/
def parseNumFrac (lex : List Char) (cs : List Char) : Option (Json × List Char) :=
  match cs with
  | '.' :: r =>
    let ds := r.takeWhile Char.isDigit
    if ds = [] then none
    else parseNumExp (lex ++ '.' :: ds) (r.dropWhile Char.isDigit)
  | _ => parseNumExp lex cs

/-- JSON number literal; returns the lexeme and the remaining input. -/
def parseNum (cs : List Char) : Option (Json × List Char) :=
  let sgnRest : List Char × List Char :=
    match cs with
    | '-' :: r => (['-'], r)
    | _ => ([], cs)
  match sgnRest.2 with
  | [] => none
  | c :: r =>
    if c = '0' then
      parseNumFrac (sgnRest.1 ++ ['0']) r
    else if c.isDigit then
      parseNumFrac (sgnRest.1 ++ c :: r.takeWhile Char.isDigit) (r.dropWhile Char.isDigit)
    else none

mutual

/-- One JSON value, fuel-indexed; the fuel strictly dominates nesting depth. -/
def parseVal : Nat → List Char → Option (Json × List Char)
  | 0, _ => none
  | fuel + 1, cs =>
    match skipWs cs with
    | 'n' :: 'u' :: 'l' :: 'l' :: rest => some (.null, rest)
    | 't' :: 'r' :: 'u' :: 'e' :: rest => some (.bool true, rest)
    | 'f' :: 'a' :: 'l' :: 's' :: 'e' :: rest => some (.bool false, rest)
    | '"' :: rest =>
      match parseStrAux [] rest with
      | some (s, rest') => some (.str s, rest')
      | none => none
    | '[' :: rest =>
      (match skipWs rest with
       | ']' :: rest' => some (.arr [], rest')
       | _ =>
         match parseItems fuel (skipWs rest) with
         | some (els, rest') => some (.arr els, rest')
         | none => none)
    | '\x7b' :: rest =>
      (match skipWs rest with
       | '\x7d' :: rest' => some (.obj [], rest')
       | _ =>
         match parseFields fuel (skipWs rest) with
         | some (fs, rest') => some (.obj fs, rest')
         | none => none)
    | c :: rest =>
      if c == '-' || c.isDigit then parseNum (c :: rest) else none
    | [] => none

/-- Comma-separated array elements up to the closing bracket. -/
def parseItems : Nat → List Char → Option (List Json × List Char)
  | 0, _ => none
  | fuel + 1, cs =>
    match parseVal fuel cs with
    | none => none
    | some (v, rest) =>
      match skipWs rest with
      | ',' :: rest' =>
        (match parseItems fuel rest' with
         | some (vs, rest'') => some (v :: vs, rest'')
         | none => none)
      | ']' :: rest' => some ([v], rest')
      | _ => none

/-- Comma-separated object members up to the closing brace. -/
def parseFields : Nat → List Char → Option (List (String × Json) × List Char)
  | 0, _ => none
  | fuel + 1, cs =>
    match skipWs cs with
    | '"' :: rest =>
      (match parseStrAux [] rest with
       | none => none
       | some (k, rest1) =>
         match skipWs rest1 with
         | ':' :: rest2 =>
           (match parseVal fuel rest2 with
            | none => none
            | some (v, rest3) =>
              match skipWs rest3 with
              | ',' :: rest4 =>
                (match parseFields fuel rest4 with
                 | some (fs, rest5) => some ((k, v) :: fs, rest5)
                 | none => none)
              | '\x7d' :: rest4 => some ([(k, v)], rest4)
              | _ => none)
         | _ => none)
    | _ => none

end

/-- Model of `JSON.parse(s)`: `none` models a thrown `SyntaxError`. -/
def jsonParse (s : String) : Option Json :=
  match parseVal (2 * s.data.length + 2) s.data with
  | some (j, rest) => if skipWs rest = [] then some j else none
  | none => none

/-! ## JavaScript value semantics on parsed JSON -/

/-- A number lexeme denotes zero iff every mantissa digit is `0`. -/
def numIsZero (lexeme : String) : Bool :=
  (lexeme.data.takeWhile (fun c => !(c == 'e') && !(c == 'E'))).all
    (fun c => c == '0' || c == '-' || c == '.')

/-- JavaScript truthiness of a `JSON.parse` result. -/
def truthy : Json → Bool
  | .null => false
  | .bool b => b
  | .num lex => !(numIsZero lex)
  | .str s => !(s == "")
  | .arr _ => true
  | .obj _ => true

/-- JavaScript `typeof v === 'object'` for a `JSON.parse` result. -/
def isObjType : Json → Bool
  | .null => true
  | .arr _ => true
  | .obj _ => true
  | _ => false

/-- JavaScript `Array.isArray`. -/
def isArr : Json → Bool
  | .arr _ => true
  | _ => false

/-- Property lookup on an object: with duplicate keys `JSON.parse` keeps the
last occurrence.  Any non-object receiver yields `undefined` (`none`) for the
identifier keys used by the source. -/
def lookupLast : List (String × Json) → String → Option Json
  | [], _ => none
  | (k, v) :: rest, key =>
    match lookupLast rest key with
    | some r => some r
    | none => if k = key then some v else none

def getProp : Json → String → Option Json
  | .obj fields, key => lookupLast fields key
  | _, _ => none

/-- Array indexing `a[i]`; `undefined` (`none`) out of bounds or off arrays. -/
def getIdx : Json → Nat → Option Json
  | .arr elems, i => elems[i]?
  | _, _ => none

/-! ## The `SSEParser` class (`src/lib/sse.ts`)

State is `\x7bbuffer, errorCount\x7d`; `maxErrors = 10`.  A thrown JS
exception is modelled by `Except.error`; the error payload of the internal
line loop records the `errorCount` field at the moment of the throw. -/

structure SSEParser where
  buffer : String
  errorCount : Nat
deriving DecidableEq

def maxErrors : Nat := 10

/-- Result of `JSON.parse(data)` followed by the structure check and content
extraction of `parseChunk`'s `try` block.  `Except.error` covers a JSON
parse failure and the explicit `throw new Error('Invalid JSON structure')`
for falsy or non-object results; on success it returns the pushed token,
if any. -/
def extractContent (parsed : Json) : Option String :=
  match getProp parsed "choices" with
  | none => none
  | some choices =>
    if truthy choices = true ∧ isArr choices = true then
      match getIdx choices 0 with
      | none => none
      | some choice =>
        if truthy choice = true then
          match getProp choice "delta" with
          | none => none
          | some delta =>
            if truthy delta = true ∧ isObjType delta = true then
              match getProp delta "content" with
              | none => none
              | some content =>
                match content with
                | .str s => if s ≠ "" then some s else none
                | _ => none
            else none
        else none
    else none

def parseAndExtract (data : String) : Except Unit (Option String) :=
  match jsonParse data with
  | none => .error ()
  | some parsed =>
    if truthy parsed = false ∨ isObjType parsed = false then .error ()
    else .ok (extractContent parsed)

/-- One iteration of the `for (const line of lines)` loop of `parseChunk`:
skip blank/comment/non-data/[DONE] lines, otherwise parse and extract.  On
a decode failure the error counter is incremented and, at `maxErrors`, the
fatal error is thrown (losing the tokens of the whole call). -/
def processLine (ec : Nat) (line : String) : Except Nat (Nat × List String) :=
  if jsTrim line = "" ∨ jsStarts line ":" = true then .ok (ec, [])
  else if jsStarts line "data: " = true then
    let data := strDrop line 6
    if data = "[DONE]" then .ok (ec, [])
    else
      match parseAndExtract data with
      | .ok tok? => .ok (0, tok?.toList)
      | .error _ =>
        if ec + 1 ≥ maxErrors then .error (ec + 1) else .ok (ec + 1, [])
  else .ok (ec, [])

/-- The complete-line loop of `parseChunk`, threading the error counter and
accumulating tokens; a throw aborts the loop and discards the tokens. -/
def processLines : List String → Nat → Except Nat (Nat × List String)
  | [], ec => .ok (ec, [])
  | line :: rest, ec =>
    match processLine ec line with
    | .error e => .error e
    | .ok (ec', toks) =>
      match processLines rest ec' with
      | .error e => .error e
      | .ok (ec'', toks') => .ok (ec'', toks ++ toks')

/-- The method `SSEParser.parseChunk`: append the chunk, apply the 100,000-character
circuit breaker, split on newlines keeping the trailing segment buffered,
and process the complete lines.  Returns the mutated state together with
the returned tokens or the thrown fatal error. -/
def parseChunk (st : SSEParser) (chunk : String) : SSEParser × Except Unit (List String) :=
  let buf := st.buffer ++ chunk
  if buf.length > 100000 then
    ({ buffer := "", errorCount := st.errorCount + 1 }, .ok [])
  else
    let parts := splitNl buf
    let newBuf := parts.getLastD ""
    let lines := parts.dropLast
    match processLines lines st.errorCount with
    | .ok (ec, toks) => ({ buffer := newBuf, errorCount := ec }, .ok toks)
    | .error ec => ({ buffer := newBuf, errorCount := ec }, .error ())

/-- The method `SSEParser.flush`: if the buffer holds non-whitespace content, re-run
`parseChunk` with a newline, swallowing any thrown error. -/
def flush (st : SSEParser) : SSEParser × List String :=
  if jsTrim st.buffer ≠ "" then
    match parseChunk st "\n" with
    | (st', .ok toks) => (st', toks)
    | (st', .error _) => (st', [])
  else (st, [])

/-- Feeding a list of chunks through successive `parseChunk` calls,
collecting the tokens each call returns (a throwing call returns none). -/
def feedAll : SSEParser → List String → SSEParser × List String
  | st, [] => (st, [])
  | st, c :: cs =>
    let r := parseChunk st c
    let toks := match r.2 with | .ok t => t | .error _ => []
    let rest := feedAll r.1 cs
    (rest.1, toks ++ rest.2)

/-- All tokens returned by a fresh-extractor session: every `parseChunk`
call in order, then the final `flush`. -/
def sessionTokens (chunks : List String) : List String :=
  let r := feedAll ⟨"", 0⟩ chunks
  r.2 ++ (flush r.1).2

/-! ## The relay's streaming loop (`src/app/api/generate/route.ts`)

The `ReadableStream.start` loop: each chunk goes through `parseChunk`; a
token is enqueued only if `token && token.trim()`; a thrown parse error is
caught and the loop continues; at end of stream `flush` tokens are enqueued
unfiltered. -/

/-- The `if (token && token.trim())` guard before enqueueing. -/
def sendTok (t : String) : Bool :=
  !(t == "") && !(jsTrim t == "")

def relayAux : SSEParser → List String → List String
  | st, [] => (flush st).2
  | st, c :: cs =>
    match parseChunk st c with
    | (st', .ok toks) => toks.filter sendTok ++ relayAux st' cs
    | (st', .error _) => relayAux st' cs

/-- The byte stream the relay sends downstream for a given list of upstream
chunks. -/
def relayRun (chunks : List String) : List String :=
  relayAux ⟨"", 0⟩ chunks

/-! ## Request validation and retry logic (`src/app/api/generate/route.ts`) -/

/-- Model of `validatePrompt` restricted to string inputs (the non-string branches
are unreachable for the string prompts the claims quantify over).  `some`
carries the error message. -/
def validatePrompt (p : String) : Option String :=
  if p = "" then some "Prompt is required"
  else if (jsTrim p).length = 0 then some "Prompt cannot be empty"
  else if p.length > 10000 then some "Prompt is too long (max 10,000 characters)"
  else none

/-- Outcome of `fetchWithRetry`: the returned response status (or the
re-thrown transport error), the number of upstream calls made, and the
backoff delays slept in milliseconds. -/
structure FetchOutcome where
  result : Except Unit Nat
  attempts : Nat
  delays : List Nat

/-- The `for (attempt = 0; attempt <= maxRetries; attempt++)` loop of
`fetchWithRetry`.  `resp n` is the upstream transport: the status returned
by the `n`-th `fetch` call, or `Except.error` for a thrown transport
failure.  Fuel counts the remaining loop iterations. -/
def fetchAux (resp : Nat → Except Unit Nat) (maxRetries baseDelay : Nat) :
    Nat → Nat → List Nat → FetchOutcome
  | attempt, 0, delays => ⟨.error (), attempt, delays⟩
  | attempt, fuel + 1, delays =>
    match resp attempt with
    | .error _ =>
      if attempt < maxRetries then
        fetchAux resp maxRetries baseDelay (attempt + 1) fuel
          (delays ++ [baseDelay * 2 ^ attempt])
      else fetchAux resp maxRetries baseDelay (attempt + 1) fuel delays
    | .ok status =>
      if 400 ≤ status ∧ status < 500 then ⟨.ok status, attempt + 1, delays⟩
      else if (200 ≤ status ∧ status ≤ 299) ∨ attempt = maxRetries then
        ⟨.ok status, attempt + 1, delays⟩
      else if attempt < maxRetries then
        fetchAux resp maxRetries baseDelay (attempt + 1) fuel
          (delays ++ [baseDelay * 2 ^ attempt])
      else fetchAux resp maxRetries baseDelay (attempt + 1) fuel delays

/-- Model of `fetchWithRetry` with its default `maxRetries = 3`, `baseDelay = 1000`. -/
def fetchWithRetryModel (resp : Nat → Except Unit Nat) : FetchOutcome :=
  fetchAux resp 3 1000 0 4 []

/-- The status-to-error-code mapping of the `!upstream.ok` branch. -/
def upstreamErrorCode (status : Nat) : String :=
  if status = 401 then "AUTH_ERROR"
  else if status = 429 then "RATE_LIMIT"
  else if status = 503 then "SERVICE_UNAVAILABLE"
  else if 500 ≤ status then "UPSTREAM_SERVER_ERROR"
  else "UPSTREAM_ERROR"

/-- What `POST` hands back: a structured error response with its JSON code
and HTTP status, a streamed body, or a propagated transport throw. -/
inductive RouteResult where
  | errorResp (code : String) (status : Nat) : RouteResult
  | stream (out : List String) : RouteResult
  | thrown : RouteResult
deriving DecidableEq

/-- The `POST` handler for a string prompt: validation, the API-key check,
`fetchWithRetry`, the status mapping (5xx surfaces as 502, 4xx as 400), and
on success the streaming loop over the upstream chunks.  The second
component counts upstream `fetch` calls actually made. -/
def routeModel (prompt : String) (apiKey : Bool) (resp : Nat → Except Unit Nat)
    (chunks : List String) : RouteResult × Nat :=
  match validatePrompt prompt with
  | some _ => (.errorResp "INVALID_PROMPT" 400, 0)
  | none =>
    if apiKey = false then (.errorResp "CONFIGURATION_ERROR" 500, 0)
    else
      let f := fetchWithRetryModel resp
      match f.result with
      | .error _ => (.thrown, f.attempts)
      | .ok status =>
        if 200 ≤ status ∧ status ≤ 299 then (.stream (relayRun chunks), f.attempts)
        else
          (.errorResp (upstreamErrorCode status) (if 500 ≤ status then 502 else 400),
           f.attempts)

/-! ## Classification of single lines, and the spec-level description -/

/-- The one situation in which a complete line raises the error counter: a
`data: ` line, not the `[DONE]` sentinel, whose payload fails to parse or
parses to a falsy or non-object value. -/
def lineBad (line : String) : Bool :=
  !(jsTrim line == "") && !(jsStarts line ":") && jsStarts line "data: " &&
  !(strDrop line 6 == "[DONE]") &&
  (match parseAndExtract (strDrop line 6) with
   | .ok _ => false
   | .error _ => true)

/-- The tokens a single complete line contributes. -/
def lineToks (line : String) : List String :=
  if jsTrim line = "" ∨ jsStarts line ":" = true then []
  else if jsStarts line "data: " = true then
    let data := strDrop line 6
    if data = "[DONE]" then []
    else
      match parseAndExtract data with
      | .ok tok? => tok?.toList
      | .error _ => []
  else []

/-- The error counter after one complete line (ignoring the throw). -/
def stepEc (ec : Nat) (line : String) : Nat :=
  if jsTrim line = "" ∨ jsStarts line ":" = true then ec
  else if jsStarts line "data: " = true then
    if strDrop line 6 = "[DONE]" then ec
    else
      match parseAndExtract (strDrop line 6) with
      | .ok _ => 0
      | .error _ => ec + 1
  else ec

/-- Tokens of a list of complete lines. -/
def lsToks (ls : List String) : List String :=
  (ls.map lineToks).flatten

/-- All lines of a complete stream text: the newline-terminated ones plus
the trailing (possibly unterminated, possibly empty) final segment. -/
def splitSegs (T : String) : List (List Char) :=
  (splitLines T.data).1 ++ [(splitLines T.data).2]

/-- A well-formed stream: no line of it (including the trailing segment,
which `flush` treats as a line) is a decode failure. -/
def wellFormedStream (T : String) : Prop :=
  ∀ l ∈ splitSegs T, lineBad (String.mk l) = false

/-- Concatenation of strings. -/
def strJoin : List String → String
  | [] => ""
  | s :: rest => s ++ strJoin rest

/-- Written from the spec's words, not from the code: the concatenation of
all `delta.content` string values present in the stream's `data: ` lines
(`[DONE]`, comments and blank lines contributing nothing). -/
def specLineContent (line : String) : String :=
  if jsStarts line "data: " = true ∧ strDrop line 6 ≠ "[DONE]" then
    match jsonParse (strDrop line 6) with
    | some parsed =>
      (match getProp parsed "choices" with
       | some choices =>
         match getIdx choices 0 with
         | some first =>
           (match getProp first "delta" with
            | some delta =>
              (match getProp delta "content" with
               | some (.str s) => s
               | _ => "")
            | none => "")
         | none => ""
       | none => "")
    | none => ""
  else ""

/-- Spec-level round-trip value for a whole stream text. -/
def specDeltaConcat (T : String) : String :=
  strJoin ((splitSegs T).map (fun l => specLineContent (String.mk l)))

/-! ## Concrete protocol fragments used in witnesses and counterexamples -/

/-- A well-formed data line carrying the token `A`. -/
def goodA : String := "data: \x7b\"choices\":[\x7b\"delta\":\x7b\"content\":\"A\"\x7d\x7d]\x7d"

/-- A well-formed data line carrying the token `B`. -/
def goodB : String := "data: \x7b\"choices\":[\x7b\"delta\":\x7b\"content\":\"B\"\x7d\x7d]\x7d"

/-- A well-formed data line carrying the token `C`. -/
def goodC : String := "data: \x7b\"choices\":[\x7b\"delta\":\x7b\"content\":\"C\"\x7d\x7d]\x7d"

/-- A well-formed data line whose content is the whitespace-only token
`"\n\n"`. -/
def wsLine : String := "data: \x7b\"choices\":[\x7b\"delta\":\x7b\"content\":\"\\n\\n\"\x7d\x7d]\x7d"

/-- Ten consecutive malformed data lines in one chunk. -/
def badTen : String := strConc (List.replicate 10 "data: x\n")

/-- A string of `n` newline characters. -/
def padNl (n : Nat) : String := String.mk (List.replicate n '\n')

/-- A newline-free buffer exceeding the circuit-breaker ceiling. -/
def bigBufX : String := String.mk (List.replicate 100001 'x')

/-- A well-formed stream longer than the circuit-breaker ceiling: one data
line followed by 99,960 blank lines, 100,005 characters in total. -/
def streamT1 : String := goodA ++ padNl 99960

/-- A second over-ceiling well-formed stream, used independently: a data
line carrying `B` followed by blank lines, 100,005 characters in total. -/
def streamT2 : String := goodB ++ "\n" ++ padNl 99959

/-- The claim's expected payload shape, written from its words: a non-empty
`choices` array whose first element has an object-valued `delta` field. -/
def hasExpectedShape (j : Json) : Bool :=
  match getProp j "choices" with
  | some (Json.arr (first :: _)) =>
    (match getProp first "delta" with
     | some (Json.obj _) => true
     | _ => false)
  | _ => false

/-- A 39-character well-formed payload carrying the token `Z`. -/
def pl39 : String := "\x7b\"choices\":[\x7b\"delta\":\x7b\"content\":\"Z\"\x7d\x7d]\x7d"

/-- JSON-insignificant padding: 99,955 spaces. -/
def wsPad : String := String.mk (List.replicate 99955 ' ')

/-- A 99,994-character payload that is still well formed: `pl39` followed by
trailing whitespace, which `JSON.parse` accepts. -/
def bigPayload : String := pl39 ++ wsPad

/-- A well-formed, newline-free data line of exactly 100,000 characters. -/
def bigLine : String := "data: " ++ bigPayload

/-- The parse result of `bigPayload`. -/
def bigJson : Json :=
  Json.obj [("choices", Json.arr [Json.obj [("delta",
    Json.obj [("content", Json.str "Z")])]])]

/-! ## String and list infrastructure lemmas -/

theorem strData_append (a b : String) : (a ++ b).data = a.data ++ b.data := rfl

theorem strLength_data (s : String) : s.length = s.data.length := rfl

theorem strMk_data (s : String) : String.mk s.data = s := rfl

theorem strMk_inj {a b : List Char} (h : String.mk a = String.mk b) : a = b := by
  cases h; rfl

theorem strAppend_empty (s : String) : s ++ "" = s :=
  String.ext (List.append_nil s.data)

theorem strEmpty_append (s : String) : "" ++ s = s :=
  String.ext rfl

theorem strConc_cons (c : String) (cs : List String) :
    strConc (c :: cs) = c ++ strConc cs := rfl

theorem strJoin_append (xs ys : List String) :
    strJoin (xs ++ ys) = strJoin xs ++ strJoin ys := by
  induction xs with
  | nil => exact (strEmpty_append _).symm
  | cons x xs ih =>
    show x ++ strJoin (xs ++ ys) = (x ++ strJoin xs) ++ strJoin ys
    rw [ih]
    exact String.ext (List.append_assoc x.data (strJoin xs).data (strJoin ys).data).symm

/-! ## `splitLines` lemmas -/

theorem splitLines_nil : splitLines [] = ([], []) := rfl

theorem splitLines_cons (c : Char) (cs : List Char) :
    splitLines (c :: cs) =
      if c = '\n' then ([] :: (splitLines cs).1, (splitLines cs).2)
      else
        match (splitLines cs).1 with
        | [] => ([], c :: (splitLines cs).2)
        | l :: ls => ((c :: l) :: ls, (splitLines cs).2) := rfl

theorem splitLines_append (a b : List Char) :
    splitLines (a ++ b) =
      ((splitLines a).1 ++ (splitLines ((splitLines a).2 ++ b)).1,
       (splitLines ((splitLines a).2 ++ b)).2) := by
  induction a with
  | nil => simp [splitLines]
  | cons c a ih =>
    by_cases hc : c = '\n'
    · subst hc
      show splitLines ('\n' :: (a ++ b)) = _
      rw [splitLines_cons, if_pos rfl, ih, splitLines_cons, if_pos rfl]
      simp
    · show splitLines (c :: (a ++ b)) = _
      rw [splitLines_cons, if_neg hc, ih, splitLines_cons, if_neg hc]
      cases h1 : (splitLines a).1 with
      | nil =>
        simp only [h1, List.nil_append]
        rw [List.cons_append, splitLines_cons, if_neg hc]
      | cons l ls => simp [h1]

theorem splitLines_no_nl (l : List Char) (h : '\n' ∉ l) : splitLines l = ([], l) := by
  induction l with
  | nil => rfl
  | cons c cs ih =>
    have hc : c ≠ '\n' := fun hh => h (hh ▸ List.mem_cons_self c cs)
    have hcs : '\n' ∉ cs := fun hh => h (List.mem_cons_of_mem c hh)
    simp [splitLines, ih hcs, if_neg hc]

theorem splitLines_trail_no_nl (l : List Char) : '\n' ∉ (splitLines l).2 := by
  induction l with
  | nil => simp [splitLines]
  | cons c cs ih =>
    by_cases hc : c = '\n'
    · subst hc; simpa [splitLines] using ih
    · simp only [splitLines, if_neg hc]
      cases h1 : (splitLines cs).1 with
      | nil =>
        simp only [h1]
        intro hmem
        rcases List.mem_cons.mp hmem with h | h
        · exact hc h.symm
        · exact ih h
      | cons x xs => simpa [h1] using ih

theorem splitLines_trail_len (l : List Char) : (splitLines l).2.length ≤ l.length := by
  induction l with
  | nil => simp [splitLines]
  | cons c cs ih =>
    by_cases hc : c = '\n'
    · subst hc; simp only [splitLines, if_pos rfl]; simpa using Nat.le_succ_of_le ih
    · simp only [splitLines, if_neg hc]
      cases h1 : (splitLines cs).1 with
      | nil => simpa [h1] using Nat.succ_le_succ ih
      | cons x xs => simpa [h1] using Nat.le_succ_of_le ih

theorem splitLines_concat_nl (l : List Char) (h : '\n' ∉ l) :
    splitLines (l ++ ['\n']) = ([l], []) := by
  induction l with
  | nil => rfl
  | cons c cs ih =>
    have hc : c ≠ '\n' := fun hh => h (hh ▸ List.mem_cons_self c cs)
    have hcs : '\n' ∉ cs := fun hh => h (List.mem_cons_of_mem c hh)
    show splitLines (c :: (cs ++ ['\n'])) = _
    simp [splitLines, ih hcs, if_neg hc]

theorem splitLines_replicate_nl (n : Nat) :
    splitLines (List.replicate n '\n') = (List.replicate n [], []) := by
  induction n with
  | zero => rfl
  | succ n ih => simp [List.replicate_succ, splitLines, ih]

theorem splitNlAux_eq (l : List Char) :
    splitNlAux l = (splitLines l).1 ++ [(splitLines l).2] := by
  induction l with
  | nil => rfl
  | cons c cs ih =>
    by_cases hc : c = '\n'
    · subst hc; simp [splitNlAux, splitLines, ih]
    · simp only [splitNlAux, splitLines, if_neg hc, ih]
      cases h1 : (splitLines cs).1 with
      | nil => simp [h1]
      | cons x xs => simp [h1]

theorem splitNl_dropLast (s : String) :
    (splitNl s).dropLast = ((splitLines s.data).1).map String.mk := by
  unfold splitNl
  rw [splitNlAux_eq, List.map_append, List.map_singleton, List.dropLast_concat]

theorem splitNl_getLastD (s : String) :
    (splitNl s).getLastD "" = String.mk (splitLines s.data).2 := by
  unfold splitNl
  rw [splitNlAux_eq, List.map_append, List.map_singleton]
  exact List.getLastD_concat _ _ _

/-! ## `jsTrim` and `jsStarts` lemmas -/

theorem jsTrimList_nil_iff (l : List Char) :
    jsTrimList l = [] ↔ ∀ c ∈ l, jsWsChar c = true := by
  unfold jsTrimList
  rw [List.reverse_eq_nil_iff, List.dropWhile_eq_nil_iff]
  constructor
  · intro h c hc
    have hsplit : l.takeWhile jsWsChar ++ l.dropWhile jsWsChar = l :=
      List.takeWhile_append_dropWhile jsWsChar l
    rw [← hsplit] at hc
    rcases List.mem_append.mp hc with h1 | h1
    · exact List.mem_takeWhile_imp h1
    · exact h c (List.mem_reverse.mpr h1)
  · intro h c hc
    exact h c ((List.dropWhile_sublist jsWsChar).subset (List.mem_reverse.mp hc))

theorem jsTrim_empty_iff (s : String) :
    jsTrim s = "" ↔ ∀ c ∈ s.data, jsWsChar c = true := by
  constructor
  · intro h
    exact (jsTrimList_nil_iff s.data).mp (strMk_inj h)
  · intro h
    show String.mk (jsTrimList s.data) = String.mk []
    rw [(jsTrimList_nil_iff s.data).mpr h]

theorem startsWithL_iff (p l : List Char) : startsWithL l p = true ↔ ∃ r, l = p ++ r := by
  induction p generalizing l with
  | nil =>
    constructor
    · intro _; exact ⟨l, rfl⟩
    · intro _; cases l <;> rfl
  | cons pc ps ih =>
    cases l with
    | nil =>
      constructor
      · intro h; exact absurd h (by simp [startsWithL])
      · rintro ⟨r, hr⟩; simp at hr
    | cons c cs =>
      show (c == pc && startsWithL cs ps) = true ↔ _
      rw [Bool.and_eq_true, beq_iff_eq, ih]
      constructor
      · rintro ⟨rfl, r, rfl⟩; exact ⟨r, rfl⟩
      · rintro ⟨r, hr⟩
        injection hr with h1 h2
        exact ⟨h1, r, h2⟩

theorem dataPre_chars : ("data: " : String).data = ['d', 'a', 't', 'a', ':', ' '] := rfl

/-- A line that starts with `data: ` is neither whitespace-only nor a
comment line. -/
theorem data_line_facts (line : String) (h : jsStarts line "data: " = true) :
    jsTrim line ≠ "" ∧ jsStarts line ":" = false := by
  obtain ⟨r, hr⟩ := (startsWithL_iff _ _).mp h
  rw [dataPre_chars] at hr
  constructor
  · intro hmt
    have hall := (jsTrim_empty_iff line).mp hmt
    have : jsWsChar 'd' = true := hall 'd' (by rw [hr]; exact List.mem_cons_self _ _)
    simp [jsWsChar] at this
  · show startsWithL line.data (":" : String).data = false
    rw [hr]
    rfl

/-! ## Line-processing lemmas -/

theorem lsToks_nil : lsToks [] = [] := rfl

theorem lsToks_cons (l : String) (ls : List String) :
    lsToks (l :: ls) = lineToks l ++ lsToks ls := by
  simp [lsToks]

theorem lsToks_append (xs ys : List String) :
    lsToks (xs ++ ys) = lsToks xs ++ lsToks ys := by
  simp [lsToks]

theorem processLine_benign (ec : Nat) (line : String) (h : lineBad line = false) :
    processLine ec line = .ok (stepEc ec line, lineToks line) := by
  by_cases h1 : jsTrim line = "" ∨ jsStarts line ":" = true
  · simp [processLine, stepEc, lineToks, h1]
  · have h1a : ¬jsTrim line = "" := fun hh => h1 (Or.inl hh)
    have h1b : jsStarts line ":" = false :=
      Bool.eq_false_iff.mpr fun hh => h1 (Or.inr hh)
    by_cases h2 : jsStarts line "data: " = true
    · by_cases h3 : strDrop line 6 = "[DONE]"
      · simp [processLine, stepEc, lineToks, h1, h2, h3]
      · cases hpe : parseAndExtract (strDrop line 6) with
        | ok t => simp [processLine, stepEc, lineToks, h1, h2, h3, hpe]
        | error e =>
          exfalso
          have : lineBad line = true := by
            simp [lineBad, h1a, h1b, h2, h3, hpe]
          rw [h] at this
          exact Bool.noConfusion this
    · simp [processLine, stepEc, lineToks, h1, h2]

theorem stepEc_benign_zero (l : String) (h : lineBad l = false) : stepEc 0 l = 0 := by
  by_cases h1 : jsTrim l = "" ∨ jsStarts l ":" = true
  · simp [stepEc, h1]
  · have h1a : ¬jsTrim l = "" := fun hh => h1 (Or.inl hh)
    have h1b : jsStarts l ":" = false :=
      Bool.eq_false_iff.mpr fun hh => h1 (Or.inr hh)
    by_cases h2 : jsStarts l "data: " = true
    · by_cases h3 : strDrop l 6 = "[DONE]"
      · simp [stepEc, h1, h2, h3]
      · cases hpe : parseAndExtract (strDrop l 6) with
        | ok t => simp [stepEc, h1, h2, h3, hpe]
        | error e =>
          exfalso
          have : lineBad l = true := by
            simp [lineBad, h1a, h1b, h2, h3, hpe]
          rw [h] at this
          exact Bool.noConfusion this
    · simp [stepEc, h1, h2]

theorem processLines_benign (ls : List String) (ec : Nat)
    (h : ∀ l ∈ ls, lineBad l = false) :
    processLines ls ec = .ok (ls.foldl stepEc ec, lsToks ls) := by
  induction ls generalizing ec with
  | nil => rfl
  | cons l ls ih =>
    have hl := h l (List.mem_cons_self _ _)
    have hls : ∀ x ∈ ls, lineBad x = false := fun x hx => h x (List.mem_cons_of_mem _ hx)
    show (match processLine ec l with
          | Except.error e => (Except.error e : Except Nat (Nat × List String))
          | Except.ok (ec', toks) =>
            match processLines ls ec' with
            | Except.error e => Except.error e
            | Except.ok (ec'', toks') => Except.ok (ec'', toks ++ toks')) = _
    rw [processLine_benign ec l hl]
    dsimp only
    rw [ih (stepEc ec l) hls]
    simp [lsToks_cons]

theorem foldl_stepEc_zero (ls : List String) (h : ∀ l ∈ ls, lineBad l = false) :
    ls.foldl stepEc 0 = 0 := by
  induction ls with
  | nil => rfl
  | cons l ls ih =>
    have hl := h l (List.mem_cons_self _ _)
    have hls : ∀ x ∈ ls, lineBad x = false := fun x hx => h x (List.mem_cons_of_mem _ hx)
    show List.foldl stepEc (stepEc 0 l) ls = 0
    rw [stepEc_benign_zero l hl]
    exact ih hls

/-! ## `parseChunk` characterization lemmas -/

theorem parseChunk_no_breaker (st : SSEParser) (chunk : String)
    (h : (st.buffer ++ chunk).data.length ≤ 100000) :
    parseChunk st chunk =
      (match processLines (((splitLines (st.buffer ++ chunk).data).1).map String.mk)
              st.errorCount with
       | .ok (ec, toks) =>
         ({ buffer := String.mk (splitLines (st.buffer ++ chunk).data).2,
            errorCount := ec }, .ok toks)
       | .error ec =>
         ({ buffer := String.mk (splitLines (st.buffer ++ chunk).data).2,
            errorCount := ec }, .error ())) := by
  have hlen : ¬((st.buffer ++ chunk).length > 100000) := by
    rw [strLength_data]; omega
  simp only [parseChunk, if_neg hlen, splitNl_dropLast, splitNl_getLastD]

theorem parseChunk_breaker_lem (st : SSEParser) (chunk : String)
    (h : 100000 < (st.buffer ++ chunk).data.length) :
    parseChunk st chunk = (⟨"", st.errorCount + 1⟩, .ok []) := by
  have hlen : (st.buffer ++ chunk).length > 100000 := by
    rw [strLength_data]; omega
  simp only [parseChunk, if_pos hlen]

theorem strData_mk (l : List Char) : (String.mk l).data = l := rfl

theorem feedAll_nil (st : SSEParser) : feedAll st [] = (st, []) := rfl

theorem feedAll_cons (st : SSEParser) (c : String) (cs : List String) :
    feedAll st (c :: cs) =
      ((feedAll (parseChunk st c).1 cs).1,
       (match (parseChunk st c).2 with
        | Except.ok t => t
        | Except.error _ => []) ++ (feedAll (parseChunk st c).1 cs).2) := rfl

/-- Invariant of the feeding loop: under the circuit-breaker ceiling and
with all complete lines well formed, the parser state after any sequence of
chunks is determined by the concatenated text alone: the buffer holds the
trailing partial line and the returned tokens are exactly the tokens of the
complete lines. -/
theorem feedAll_run (chunks : List String) : ∀ (st : SSEParser),
    '\n' ∉ st.buffer.data →
    (st.buffer ++ strConc chunks).data.length ≤ 100000 →
    (∀ l ∈ (splitLines (st.buffer ++ strConc chunks).data).1,
       lineBad (String.mk l) = false) →
    feedAll st chunks =
      ({ buffer := String.mk (splitLines (st.buffer ++ strConc chunks).data).2,
         errorCount :=
           (((splitLines (st.buffer ++ strConc chunks).data).1).map String.mk).foldl
             stepEc st.errorCount },
       lsToks (((splitLines (st.buffer ++ strConc chunks).data).1).map String.mk)) := by
  induction chunks with
  | nil =>
    intro st hnl hlen hwf
    have h0 : (st.buffer ++ strConc []).data = st.buffer.data := by
      show (st.buffer ++ "").data = _
      rw [strAppend_empty]
    simp only [h0, splitLines_no_nl st.buffer.data hnl, feedAll_nil]
    simp [lsToks, strMk_data]
  | cons c cs ih =>
    intro st hnl hlen hwf
    have hdata : (st.buffer ++ strConc (c :: cs)).data
        = (st.buffer ++ c).data ++ (strConc cs).data := by
      rw [strConc_cons, strData_append, strData_append, strData_append,
        List.append_assoc]
    have hlenB : (st.buffer ++ c).data.length ≤ 100000 := by
      rw [hdata, List.length_append] at hlen
      omega
    have hspl := splitLines_append ((st.buffer ++ c).data) ((strConc cs).data)
    have hwfB : ∀ l ∈ (splitLines (st.buffer ++ c).data).1,
        lineBad (String.mk l) = false := by
      intro l hl
      apply hwf
      rw [hdata, hspl]
      exact List.mem_append_left _ hl
    have hwfBm : ∀ x ∈ ((splitLines (st.buffer ++ c).data).1).map String.mk,
        lineBad x = false := by
      intro x hx
      obtain ⟨l, hl, rfl⟩ := List.mem_map.mp hx
      exact hwfB l hl
    have hpc : parseChunk st c =
        ({ buffer := String.mk (splitLines (st.buffer ++ c).data).2,
           errorCount :=
             (((splitLines (st.buffer ++ c).data).1).map String.mk).foldl
               stepEc st.errorCount },
         .ok (lsToks (((splitLines (st.buffer ++ c).data).1).map String.mk))) := by
      rw [parseChunk_no_breaker st c hlenB,
        processLines_benign _ _ hwfBm]
    have htrail : '\n' ∉ (splitLines (st.buffer ++ c).data).2 :=
      splitLines_trail_no_nl _
    have hrest : (String.mk (splitLines (st.buffer ++ c).data).2 ++ strConc cs).data
        = (splitLines (st.buffer ++ c).data).2 ++ (strConc cs).data := by
      rw [strData_append, strData_mk]
    have hlen2 : (String.mk (splitLines (st.buffer ++ c).data).2 ++ strConc cs).data.length
        ≤ 100000 := by
      rw [hrest, List.length_append]
      have h1 := splitLines_trail_len ((st.buffer ++ c).data)
      rw [hdata, List.length_append] at hlen
      omega
    have hwf2 : ∀ l ∈ (splitLines ((String.mk (splitLines (st.buffer ++ c).data).2
        ++ strConc cs).data)).1, lineBad (String.mk l) = false := by
      intro l hl
      apply hwf
      rw [hdata, hspl]
      rw [hrest] at hl
      exact List.mem_append_right _ hl
    have hih := ih { buffer := String.mk (splitLines (st.buffer ++ c).data).2,
                     errorCount :=
                       (((splitLines (st.buffer ++ c).data).1).map String.mk).foldl
                         stepEc st.errorCount }
      htrail hlen2 hwf2
    rw [feedAll_cons, hpc]
    dsimp only at hih ⊢
    rw [hih, hrest]
    rw [hdata, hspl]
    dsimp only
    rw [List.map_append, List.foldl_append, lsToks_append]

/-! ## `flush` lemmas -/

theorem flush_ws (st : SSEParser) (h : jsTrim st.buffer = "") : flush st = (st, []) := by
  unfold flush
  rw [if_neg (by simp [h])]

theorem flush_of_ok (st : SSEParser) (toks : List String)
    (hnw : jsTrim st.buffer ≠ "") (hok : (parseChunk st "\n").2 = Except.ok toks) :
    flush st = ((parseChunk st "\n").1, toks) := by
  unfold flush
  rw [if_pos hnw]
  cases hp : parseChunk st "\n" with
  | mk st2 r =>
    rw [hp] at hok
    dsimp at hok
    cases r with
    | ok t =>
      injection hok with h1
      rw [h1]
    | error e => exact absurd hok (by simp)

theorem flush_of_error (st : SSEParser)
    (hnw : jsTrim st.buffer ≠ "") (herr : (parseChunk st "\n").2 = Except.error ()) :
    flush st = ((parseChunk st "\n").1, []) := by
  unfold flush
  rw [if_pos hnw]
  cases hp : parseChunk st "\n" with
  | mk st2 r =>
    rw [hp] at herr
    dsimp at herr
    cases r with
    | ok t => exact absurd herr (by simp)
    | error e => rfl

theorem nl_data : ("\n" : String).data = ['\n'] := rfl

/-- When the buffer is a single incomplete line under the ceiling, `flush`
processes exactly that line as if it were newline-terminated. -/
theorem flush_line (st : SSEParser) (ec' : Nat) (toks : List String)
    (hnw : jsTrim st.buffer ≠ "")
    (hnl : '\n' ∉ st.buffer.data)
    (hlen : st.buffer.data.length + 1 ≤ 100000)
    (hok : processLine st.errorCount st.buffer = Except.ok (ec', toks)) :
    flush st = (⟨"", ec'⟩, toks) := by
  have hdata : (st.buffer ++ "\n").data = st.buffer.data ++ ['\n'] := by
    rw [strData_append, nl_data]
  have hlen2 : (st.buffer ++ "\n").data.length ≤ 100000 := by
    rw [hdata, List.length_append]
    simpa using hlen
  have hpc := parseChunk_no_breaker st "\n" hlen2
  rw [hdata, splitLines_concat_nl st.buffer.data hnl] at hpc
  dsimp at hpc
  rw [strMk_data] at hpc
  have hpl : processLines [st.buffer] st.errorCount = Except.ok (ec', toks) := by
    show (match processLine st.errorCount st.buffer with
          | Except.error e => (Except.error e : Except Nat (Nat × List String))
          | Except.ok (a, b) =>
            match (Except.ok (a, []) : Except Nat (Nat × List String)) with
            | Except.error e => Except.error e
            | Except.ok (ec'', toks') => Except.ok (ec'', b ++ toks')) = _
    rw [hok]
    simp
  rw [hpl] at hpc
  dsimp at hpc
  rw [flush_of_ok st toks hnw (by rw [hpc])]
  rw [hpc]

/-! ## Code extraction agrees with the spec's description, line by line -/

theorem strJoin_lineToks_eq_spec (l : String) :
    strJoin (lineToks l) = specLineContent l := by
  by_cases h2 : jsStarts l "data: " = true
  · obtain ⟨hnw, hcol⟩ := data_line_facts l h2
    have h1 : ¬(jsTrim l = "" ∨ jsStarts l ":" = true) := by
      rintro (h | h)
      · exact hnw h
      · rw [hcol] at h; exact Bool.noConfusion h
    by_cases h3 : strDrop l 6 = "[DONE]"
    · simp [lineToks, specLineContent, h1, h2, h3, strJoin]
    · simp only [lineToks, if_neg h1, if_pos h2, if_neg h3]
      simp only [specLineContent, if_pos (And.intro h2 h3)]
      cases hj : jsonParse (strDrop l 6) with
      | none => simp [parseAndExtract, hj, strJoin]
      | some parsed =>
        by_cases hobj : truthy parsed = false ∨ isObjType parsed = false
        · simp only [parseAndExtract, hj, if_pos hobj]
          cases parsed with
          | obj fields => simp [truthy, isObjType] at hobj
          | arr es => simp [truthy, isObjType] at hobj
          | null => simp [getProp, strJoin]
          | bool b => simp [getProp, strJoin]
          | num n => simp [getProp, strJoin]
          | str s => simp [getProp, strJoin]
        · simp only [parseAndExtract, hj, if_neg hobj]
          cases hch : getProp parsed "choices" with
          | none => simp [extractContent, hch, strJoin]
          | some choices =>
            cases choices with
            | null => simp [extractContent, hch, truthy, isArr, getIdx, strJoin]
            | bool b => simp [extractContent, hch, truthy, isArr, getIdx, strJoin]
            | num n => simp [extractContent, hch, truthy, isArr, getIdx, strJoin]
            | str s => simp [extractContent, hch, truthy, isArr, getIdx, strJoin]
            | obj fs => simp [extractContent, hch, truthy, isArr, getIdx, strJoin]
            | arr elems =>
              simp only [extractContent, hch, truthy, isArr, getIdx]
              cases he : elems[0]? with
              | none => simp [strJoin]
              | some choice =>
                simp only [dite_eq_ite, if_pos (And.intro rfl rfl)]
                cases choice with
                | null => simp [truthy, getProp, strJoin]
                | bool b =>
                  cases b with
                  | false => simp [truthy, getProp, strJoin]
                  | true => simp [truthy, getProp, strJoin]
                | num n =>
                  by_cases hz : numIsZero n = true
                  · simp [truthy, hz, getProp, strJoin]
                  · simp [truthy, hz, getProp, strJoin]
                | str s =>
                  by_cases hs : s = ""
                  · simp [truthy, hs, getProp, strJoin]
                  · simp [truthy, hs, getProp, strJoin]
                | arr es => simp [truthy, getProp, strJoin]
                | obj cfs =>
                  simp only [truthy, if_pos rfl]
                  cases hd : lookupLast cfs "delta" with
                  | none => simp [getProp, hd, strJoin]
                  | some delta =>
                    simp only [getProp, hd]
                    cases delta with
                    | null => simp [truthy, isObjType, getProp, strJoin]
                    | bool b => cases b <;> simp [truthy, isObjType, getProp, strJoin]
                    | num n => simp [truthy, isObjType, getProp, strJoin]
                    | str s =>
                      by_cases hs : s = "" <;> simp [truthy, hs, isObjType, getProp, strJoin]
                    | arr es => simp [truthy, isObjType, getProp, strJoin]
                    | obj dfs =>
                      simp only [truthy, isObjType, if_pos (And.intro rfl rfl)]
                      cases hc : lookupLast dfs "content" with
                      | none => simp [getProp, hc, strJoin]
                      | some content =>
                        simp only [getProp, hc]
                        cases content with
                        | null => simp [strJoin]
                        | bool b => simp [strJoin]
                        | num n => simp [strJoin]
                        | arr es => simp [strJoin]
                        | obj ofs => simp [strJoin]
                        | str s =>
                          by_cases hs : s = ""
                          · simp [hs, strJoin]
                          · simp [hs, strJoin, strAppend_empty]
  · by_cases h1 : jsTrim l = "" ∨ jsStarts l ":" = true <;>
      simp [lineToks, specLineContent, h1, h2, strJoin]

theorem strJoin_lsToks (ls : List String) :
    strJoin (lsToks ls) = strJoin (ls.map specLineContent) := by
  induction ls with
  | nil => rfl
  | cons l ls ih =>
    rw [lsToks_cons, strJoin_append, ih, List.map_cons]
    show _ = specLineContent l ++ strJoin (ls.map specLineContent)
    rw [strJoin_lineToks_eq_spec]

theorem specLineContent_ws (s : String) (h : jsTrim s = "") : specLineContent s = "" := by
  unfold specLineContent
  rw [if_neg]
  rintro ⟨hd, _⟩
  exact (data_line_facts s hd).1 h

theorem sessionTokens_def (chunks : List String) :
    sessionTokens chunks =
      (feedAll ⟨"", 0⟩ chunks).2 ++ (flush (feedAll ⟨"", 0⟩ chunks).1).2 := rfl

/-- The complete session of a fresh extractor on a well-formed stream under
the ceiling: state and tokens are functions of the concatenated text. -/
theorem feedAll_fresh (chunks : List String)
    (hlen : (strConc chunks).data.length ≤ 100000)
    (hwf : ∀ l ∈ (splitLines (strConc chunks).data).1, lineBad (String.mk l) = false) :
    feedAll ⟨"", 0⟩ chunks =
      ({ buffer := String.mk (splitLines (strConc chunks).data).2,
         errorCount :=
           (((splitLines (strConc chunks).data).1).map String.mk).foldl stepEc 0 },
       lsToks (((splitLines (strConc chunks).data).1).map String.mk)) := by
  have hemp : (("" : String) ++ strConc chunks) = strConc chunks := strEmpty_append _
  have h := feedAll_run chunks ⟨"", 0⟩ (by simp) (by rw [hemp]; exact hlen)
    (by rw [hemp]; exact hwf)
  rw [hemp] at h
  exact h

/-- Round-trip under the ceiling: the session's tokens concatenate to the
spec-level `delta.content` concatenation, and the final error counter is 0. -/
theorem session_roundtrip (chunks : List String)
    (hlen : (strConc chunks).data.length < 100000)
    (hwf : wellFormedStream (strConc chunks)) :
    strJoin (sessionTokens chunks) = specDeltaConcat (strConc chunks) ∧
      (flush (feedAll ⟨"", 0⟩ chunks).1).1.errorCount = 0 := by
  have hwfL : ∀ l ∈ (splitLines (strConc chunks).data).1, lineBad (String.mk l) = false := by
    intro l hl
    exact hwf l (List.mem_append_left _ hl)
  have hwfT : lineBad (String.mk (splitLines (strConc chunks).data).2) = false := by
    apply hwf
    exact List.mem_append_right _ (List.mem_singleton.mpr rfl)
  have hwfLm : ∀ x ∈ ((splitLines (strConc chunks).data).1).map String.mk,
      lineBad x = false := by
    intro x hx
    obtain ⟨l, hl, rfl⟩ := List.mem_map.mp hx
    exact hwfL l hl
  have hfeed := feedAll_fresh chunks (Nat.le_of_lt hlen) hwfL
  have hec0 : (((splitLines (strConc chunks).data).1).map String.mk).foldl stepEc 0 = 0 :=
    foldl_stepEc_zero _ hwfLm
  rw [hec0] at hfeed
  have hspecsplit : specDeltaConcat (strConc chunks) =
      strJoin ((((splitLines (strConc chunks).data).1).map String.mk).map specLineContent)
        ++ specLineContent (String.mk (splitLines (strConc chunks).data).2) := by
    unfold specDeltaConcat splitSegs
    rw [List.map_append, strJoin_append, List.map_map]
    show _ = _ ++ specLineContent (String.mk (splitLines (strConc chunks).data).2)
    rw [List.map_singleton]
    show _ ++ (specLineContent (String.mk (splitLines (strConc chunks).data).2) ++ "") = _
    rw [strAppend_empty]
    rfl
  by_cases hws : jsTrim (String.mk (splitLines (strConc chunks).data).2) = ""
  · have hflush : flush (feedAll ⟨"", 0⟩ chunks).1 = ((feedAll ⟨"", 0⟩ chunks).1, []) := by
      rw [hfeed]
      exact flush_ws _ hws
    constructor
    · rw [sessionTokens_def, hflush, hfeed]
      dsimp only
      rw [List.append_nil, strJoin_lsToks, hspecsplit, specLineContent_ws _ hws,
        strAppend_empty]
    · rw [hflush, hfeed]
  · have hnl : '\n' ∉ (String.mk (splitLines (strConc chunks).data).2).data := by
      rw [strData_mk]
      exact splitLines_trail_no_nl _
    have hlen2 : (String.mk (splitLines (strConc chunks).data).2).data.length + 1 ≤ 100000 := by
      rw [strData_mk]
      have := splitLines_trail_len ((strConc chunks).data)
      omega
    have hok : processLine 0 (String.mk (splitLines (strConc chunks).data).2) =
        Except.ok (0, lineToks (String.mk (splitLines (strConc chunks).data).2)) := by
      rw [processLine_benign 0 _ hwfT, stepEc_benign_zero _ hwfT]
    have hflush : flush (feedAll ⟨"", 0⟩ chunks).1 =
        (⟨"", 0⟩, lineToks (String.mk (splitLines (strConc chunks).data).2)) := by
      rw [hfeed]
      exact flush_line _ 0 _ hws hnl hlen2 hok
    constructor
    · rw [sessionTokens_def, hflush, hfeed]
      dsimp only
      rw [strJoin_append, strJoin_lsToks, hspecsplit, strJoin_lineToks_eq_spec]
    · rw [hflush]

/-! ## Computations on the concrete protocol fragments -/

theorem padNl_data (n : Nat) : (padNl n).data = List.replicate n '\n' := rfl

theorem processLine_empty_line (ec : Nat) : processLine ec "" = Except.ok (ec, []) := rfl

theorem processLines_rep_empty (n ec : Nat) :
    processLines (List.replicate n "") ec = Except.ok (ec, []) := by
  induction n generalizing ec with
  | zero => rfl
  | succ n ih =>
    rw [List.replicate_succ]
    show (match processLine ec "" with
          | Except.error e => (Except.error e : Except Nat (Nat × List String))
          | Except.ok (ec', toks) =>
            match processLines (List.replicate n "") ec' with
            | Except.error e => Except.error e
            | Except.ok (ec'', toks') => Except.ok (ec'', toks ++ toks')) = _
    rw [processLine_empty_line]
    dsimp only
    rw [ih ec]
    rfl

theorem parseChunk_fresh_pad (n : Nat) (h : n ≤ 100000) :
    parseChunk ⟨"", 0⟩ (padNl n) = (⟨"", 0⟩, .ok []) := by
  have hsd : ((⟨"", 0⟩ : SSEParser).buffer ++ padNl n).data = List.replicate n '\n' := rfl
  have hlen : ((⟨"", 0⟩ : SSEParser).buffer ++ padNl n).data.length ≤ 100000 := by
    rw [hsd, List.length_replicate]
    exact h
  rw [parseChunk_no_breaker _ _ hlen, hsd, splitLines_replicate_nl]
  dsimp only
  rw [List.map_replicate]
  show (match processLines (List.replicate n "") 0 with
        | Except.ok (ec, toks) =>
          ((⟨String.mk [], ec⟩ : SSEParser), (Except.ok toks : Except Unit (List String)))
        | Except.error ec => (⟨String.mk [], ec⟩, Except.error ())) = _
  rw [processLines_rep_empty]

theorem goodA_len : goodA.data.length = 45 := rfl

theorem streamT1_data :
    streamT1.data = (goodA.data ++ ['\n']) ++ List.replicate 99959 '\n' := by
  show (goodA ++ padNl 99960).data = _
  rw [strData_append, padNl_data, List.append_assoc]
  have h : (99960 : Nat) = 99959 + 1 := by norm_num
  rw [h, List.replicate_succ]
  rfl

theorem streamT1_len : streamT1.data.length = 100005 := by
  rw [streamT1_data, List.length_append, List.length_append, List.length_replicate,
    goodA_len]
  rfl

theorem streamT1_split :
    splitLines streamT1.data = (goodA.data :: List.replicate 99959 [], []) := by
  rw [streamT1_data,
    splitLines_append ((goodA.data ++ ['\n'])) (List.replicate 99959 '\n'),
    splitLines_concat_nl goodA.data (by decide)]
  dsimp only
  rw [List.nil_append, splitLines_replicate_nl]
  rfl

theorem streamT1_wf :
    ∀ l ∈ (splitLines streamT1.data).1, lineBad (String.mk l) = false := by
  rw [streamT1_split]
  intro l hl
  rcases List.mem_cons.mp hl with rfl | h
  · show lineBad (String.mk goodA.data) = false
    rw [strMk_data]
    decide
  · rw [(List.mem_replicate.mp h).2]
    decide

theorem parseChunk_fresh_T1 : parseChunk ⟨"", 0⟩ streamT1 = (⟨"", 1⟩, .ok []) := by
  have hlen : 100000 < ((⟨"", 0⟩ : SSEParser).buffer ++ streamT1).data.length := by
    show 100000 < (("" : String) ++ streamT1).data.length
    rw [strEmpty_append, streamT1_len]
    norm_num
  exact parseChunk_breaker_lem _ _ hlen

theorem flush_fresh_empty (ec : Nat) : flush ⟨"", ec⟩ = (⟨"", ec⟩, []) :=
  flush_ws _ rfl

theorem sessionTokens_T1_single : sessionTokens [streamT1] = [] := by
  rw [sessionTokens_def, feedAll_cons, parseChunk_fresh_T1]
  dsimp only
  rw [feedAll_nil]
  dsimp only
  rw [flush_fresh_empty]
  rfl

theorem parseChunk_goodA_nl : parseChunk ⟨"", 0⟩ (goodA ++ "\n") = (⟨"", 0⟩, .ok ["A"]) := rfl

theorem feedAll_T1_pair :
    feedAll ⟨"", 0⟩ [goodA ++ "\n", padNl 99959] = (⟨"", 0⟩, ["A"] ++ ([] ++ [])) := by
  rw [feedAll_cons, parseChunk_goodA_nl]
  dsimp only
  rw [feedAll_cons, parseChunk_fresh_pad 99959 (by norm_num)]
  dsimp only
  rw [feedAll_nil]

theorem sessionTokens_T1_pair :
    sessionTokens [goodA ++ "\n", padNl 99959] = ["A"] := by
  rw [sessionTokens_def, feedAll_T1_pair, flush_fresh_empty]
  rfl

theorem streamT1_conc : strConc [streamT1] = strConc [goodA ++ "\n", padNl 99959] := by
  apply String.ext
  show (streamT1 ++ "").data = ((goodA ++ "\n") ++ (padNl 99959 ++ "")).data
  rw [strAppend_empty, strAppend_empty, streamT1_data, strData_append]
  rfl

theorem strJoin_replicate_empty (n : Nat) : strJoin (List.replicate n "") = "" := by
  induction n with
  | zero => rfl
  | succ n ih =>
    rw [List.replicate_succ]
    show ("" : String) ++ strJoin (List.replicate n "") = ""
    rw [strEmpty_append, ih]

theorem streamT2_data :
    streamT2.data = (goodB.data ++ ['\n']) ++ List.replicate 99959 '\n' := by
  show ((goodB ++ "\n") ++ padNl 99959).data = _
  rw [strData_append, padNl_data]
  rfl

theorem streamT2_len : streamT2.data.length = 100005 := by
  rw [streamT2_data, List.length_append, List.length_append, List.length_replicate]
  rfl

theorem streamT2_split :
    splitLines streamT2.data = (goodB.data :: List.replicate 99959 [], []) := by
  rw [streamT2_data,
    splitLines_append ((goodB.data ++ ['\n'])) (List.replicate 99959 '\n'),
    splitLines_concat_nl goodB.data (by decide)]
  dsimp only
  rw [List.nil_append, splitLines_replicate_nl]
  rfl

theorem streamT2_wf : wellFormedStream streamT2 := by
  intro l hl
  unfold splitSegs at hl
  rw [streamT2_split] at hl
  dsimp only at hl
  rcases List.mem_append.mp hl with h | h
  · rcases List.mem_cons.mp h with rfl | h
    · show lineBad (String.mk goodB.data) = false
      rw [strMk_data]
      decide
    · rw [(List.mem_replicate.mp h).2]
      decide
  · rw [List.mem_singleton.mp h]
    decide

theorem parseChunk_fresh_T2 : parseChunk ⟨"", 0⟩ streamT2 = (⟨"", 1⟩, .ok []) := by
  have hlen : 100000 < ((⟨"", 0⟩ : SSEParser).buffer ++ streamT2).data.length := by
    show 100000 < (("" : String) ++ streamT2).data.length
    rw [strEmpty_append, streamT2_len]
    norm_num
  exact parseChunk_breaker_lem _ _ hlen

theorem sessionTokens_T2_single : sessionTokens [streamT2] = [] := by
  rw [sessionTokens_def, feedAll_cons, parseChunk_fresh_T2]
  dsimp only
  rw [feedAll_nil]
  dsimp only
  rw [flush_fresh_empty]
  rfl

theorem specLineContent_empty_line : specLineContent "" = "" := rfl

theorem specDeltaConcat_T2 : specDeltaConcat streamT2 = "B" := by
  unfold specDeltaConcat splitSegs
  rw [streamT2_split]
  dsimp only
  rw [List.map_append, List.map_cons, List.map_replicate, List.map_singleton,
    strJoin_append]
  show ("B" ++ strJoin (List.replicate 99959 (specLineContent (String.mk [])))) ++ _ = "B"
  rw [(by rfl : specLineContent (String.mk []) = ""), strJoin_replicate_empty,
    strAppend_empty]
  show "B" ++ (specLineContent (String.mk []) ++ "") = "B"
  rw [(by rfl : specLineContent (String.mk []) = ""), strEmpty_append, strAppend_empty]

/-! ## Relay-loop step lemmas -/

theorem relayAux_nil (st : SSEParser) : relayAux st [] = (flush st).2 := rfl

theorem relayAux_cons_ok (st : SSEParser) (c : String) (cs : List String)
    (toks : List String) (h : (parseChunk st c).2 = Except.ok toks) :
    relayAux st (c :: cs) = toks.filter sendTok ++ relayAux (parseChunk st c).1 cs := by
  show (match parseChunk st c with
        | (st', Except.ok toks) => toks.filter sendTok ++ relayAux st' cs
        | (st', Except.error _) => relayAux st' cs) = _
  cases hp : parseChunk st c with
  | mk st2 r =>
    rw [hp] at h
    dsimp at h
    cases r with
    | ok t =>
      injection h with h1
      rw [h1]
    | error e => exact absurd h (by simp)

theorem relayAux_cons_err (st : SSEParser) (c : String) (cs : List String)
    (h : (parseChunk st c).2 = Except.error ()) :
    relayAux st (c :: cs) = relayAux (parseChunk st c).1 cs := by
  show (match parseChunk st c with
        | (st', Except.ok toks) => toks.filter sendTok ++ relayAux st' cs
        | (st', Except.error _) => relayAux st' cs) = _
  cases hp : parseChunk st c with
  | mk st2 r =>
    rw [hp] at h
    dsimp at h
    cases r with
    | ok t => exact absurd h (by simp)
    | error e => rfl

/-! ## Route / retry lemmas -/

theorem validatePrompt_rejects (p : String) (h : jsTrim p = "" ∨ 10000 < p.length) :
    validatePrompt p ≠ none := by
  unfold validatePrompt
  by_cases hp : p = ""
  · simp [hp]
  · rw [if_neg hp]
    rcases h with h | h
    · rw [if_pos (by rw [h]; rfl)]
      simp
    · by_cases h2 : (jsTrim p).length = 0
      · simp [h2]
      · rw [if_neg h2, if_pos (by omega : p.length > 10000)]
        simp

theorem routeModel_invalid (p : String) (apiKey : Bool) (resp : Nat → Except Unit Nat)
    (chunks : List String) (h : validatePrompt p ≠ none) :
    routeModel p apiKey resp chunks = (.errorResp "INVALID_PROMPT" 400, 0) := by
  unfold routeModel
  cases hv : validatePrompt p with
  | none => exact absurd hv h
  | some m => rfl

theorem fetch_429_once (resp : Nat → Except Unit Nat) (h : resp 0 = Except.ok 429) :
    fetchWithRetryModel resp = ⟨.ok 429, 1, []⟩ := by
  show fetchAux resp 3 1000 0 4 [] = _
  have h4 : (4 : Nat) = 3 + 1 := rfl
  rw [h4, fetchAux, h]
  norm_num

theorem fetch_500_exhausts (resp : Nat → Except Unit Nat)
    (h0 : resp 0 = Except.ok 500) (h1 : resp 1 = Except.ok 500)
    (h2 : resp 2 = Except.ok 500) (h3 : resp 3 = Except.ok 500) :
    fetchWithRetryModel resp = ⟨.ok 500, 4, [1000, 2000, 4000]⟩ := by
  show fetchAux resp 3 1000 0 4 [] = _
  rw [(rfl : (4 : Nat) = 3 + 1), fetchAux, h0]
  norm_num
  rw [(rfl : (3 : Nat) = 2 + 1), fetchAux, h1]
  norm_num
  rw [(rfl : (2 : Nat) = 1 + 1), fetchAux, h2]
  norm_num
  rw [(rfl : (1 : Nat) = 0 + 1), fetchAux, h3]
  norm_num

theorem routeModel_upstream_error (p : String) (resp : Nat → Except Unit Nat)
    (chunks : List String) (status n : Nat) (ds : List Nat)
    (hv : validatePrompt p = none)
    (hf : fetchWithRetryModel resp = ⟨.ok status, n, ds⟩)
    (hst : ¬(200 ≤ status ∧ status ≤ 299)) :
    routeModel p true resp chunks =
      (.errorResp (upstreamErrorCode status) (if 500 ≤ status then 502 else 400), n) := by
  unfold routeModel
  rw [hv]
  dsimp only
  rw [if_neg (by simp), hf]
  dsimp only
  rw [if_neg hst]

/-! ## Token filter characterization and data-line lemmas -/

theorem sendTok_iff (t : String) : sendTok t = true ↔ ∃ c ∈ t.data, jsWsChar c = false := by
  have hsend : sendTok t = true ↔ (¬(t = "") ∧ ¬(jsTrim t = "")) := by
    unfold sendTok
    simp
  rw [hsend]
  constructor
  · rintro ⟨h1, h2⟩
    by_contra hall
    push_neg at hall
    apply h2
    apply (jsTrim_empty_iff t).mpr
    intro c hc
    have := hall c hc
    simpa using this
  · rintro ⟨c, hc, hw⟩
    have hne : t.data ≠ [] := fun h0 => by rw [h0] at hc; exact absurd hc (List.not_mem_nil c)
    refine ⟨fun h0 => hne (by rw [h0]), fun h2 => ?_⟩
    have := (jsTrim_empty_iff t).mp h2 c hc
    rw [hw] at this
    exact Bool.noConfusion this

theorem strDrop_data_line (d : String) : strDrop ("data: " ++ d) 6 = d := by
  show String.mk ((("data: " ++ d).data).drop 6) = d
  rw [strData_append, dataPre_chars]
  show String.mk d.data = d
  exact strMk_data d

theorem jsStarts_data_line (d : String) : jsStarts ("data: " ++ d) "data: " = true := by
  apply (startsWithL_iff _ _).mpr
  exact ⟨d.data, strData_append _ _⟩

theorem processLine_data (ec : Nat) (d : String) (hd : d ≠ "[DONE]") :
    processLine ec ("data: " ++ d) =
      (match parseAndExtract d with
       | Except.ok tok? => Except.ok (0, tok?.toList)
       | Except.error _ =>
         if ec + 1 ≥ maxErrors then Except.error (ec + 1) else Except.ok (ec + 1, [])) := by
  have h2 : jsStarts ("data: " ++ d) "data: " = true := jsStarts_data_line d
  obtain ⟨hnw, hcol⟩ := data_line_facts _ h2
  have h1 : ¬(jsTrim ("data: " ++ d) = "" ∨ jsStarts ("data: " ++ d) ":" = true) := by
    rintro (h | h)
    · exact hnw h
    · rw [hcol] at h; exact Bool.noConfusion h
  unfold processLine
  rw [if_neg h1, if_pos h2, strDrop_data_line, if_neg hd]

theorem jsonParse_done : jsonParse "[DONE]" = none := rfl

/-! ## Lemmas for the over-ceiling flush counterexample and shape analysis -/

theorem skipWs_replicate_space (n : Nat) (rest : List Char) :
    skipWs (List.replicate n ' ' ++ rest) = skipWs rest := by
  induction n with
  | zero => rfl
  | succ n ih =>
    rw [List.replicate_succ]
    show skipWs (' ' :: (List.replicate n ' ' ++ rest)) = _
    rw [(rfl : skipWs (' ' :: (List.replicate n ' ' ++ rest))
          = skipWs (List.replicate n ' ' ++ rest))]
    exact ih

theorem skipWs_replicate_nil (n : Nat) : skipWs (List.replicate n ' ') = [] := by
  have h := skipWs_replicate_space n []
  rw [List.append_nil] at h
  exact h.trans rfl

theorem bigPayload_data : bigPayload.data = pl39.data ++ List.replicate 99955 ' ' := rfl

theorem bigPayload_len : bigPayload.data.length = 99994 := by
  rw [bigPayload_data, List.length_append, List.length_replicate]
  rfl

theorem jsonParse_bigPayload : jsonParse bigPayload = some bigJson := by
  rw [jsonParse, bigPayload_data]
  rw [(by rw [List.length_append, List.length_replicate]; rfl :
        (pl39.data ++ List.replicate 99955 ' ').length = 99994)]
  have hpv : parseVal (2 * 99994 + 2) (pl39.data ++ List.replicate 99955 ' ')
      = some (bigJson, List.replicate 99955 ' ') := rfl
  rw [hpv]
  dsimp only
  rw [if_pos (skipWs_replicate_nil 99955)]

theorem bigLine_len : bigLine.data.length = 100000 := by
  show (("data: " ++ bigPayload)).data.length = 100000
  rw [strData_append, List.length_append, bigPayload_len]
  rfl

theorem bigLine_no_nl : '\n' ∉ bigLine.data := by
  have he : bigLine.data = ("data: " ++ pl39).data ++ List.replicate 99955 ' ' := rfl
  rw [he]
  intro h
  rcases List.mem_append.mp h with h1 | h1
  · exact absurd h1 (by decide)
  · exact absurd (List.mem_replicate.mp h1).2 (by decide)

theorem parseChunk_bigLine : parseChunk ⟨"", 0⟩ bigLine = (⟨bigLine, 0⟩, Except.ok []) := by
  have he : ((⟨"", 0⟩ : SSEParser).buffer ++ bigLine).data = bigLine.data := by
    show (("" : String) ++ bigLine).data = bigLine.data
    rw [strEmpty_append]
  have hlen : ((⟨"", 0⟩ : SSEParser).buffer ++ bigLine).data.length ≤ 100000 := by
    rw [he, bigLine_len]
  rw [parseChunk_no_breaker _ _ hlen, he, splitLines_no_nl _ bigLine_no_nl]
  rfl

theorem bigPayload_ne_done : bigPayload ≠ "[DONE]" := by
  intro h
  have h2 : bigPayload.data.length = 6 := by rw [h]; rfl
  rw [bigPayload_len] at h2
  exact absurd h2 (by decide)

theorem parseAndExtract_bigPayload : parseAndExtract bigPayload = Except.ok (some "Z") := by
  rw [parseAndExtract, jsonParse_bigPayload]
  dsimp only
  rw [if_neg (by decide)]
  rfl

theorem processLine_bigLine (ec : Nat) : processLine ec bigLine = Except.ok (0, ["Z"]) := by
  show processLine ec ("data: " ++ bigPayload) = _
  rw [processLine_data ec bigPayload bigPayload_ne_done, parseAndExtract_bigPayload]
  rfl

theorem jsTrim_bigLine : jsTrim bigLine ≠ "" :=
  (data_line_facts ("data: " ++ bigPayload) (jsStarts_data_line bigPayload)).1

/-- When the buffer already measures at least 100,000 characters, the
newline appended by `flush` pushes `parseChunk` over the circuit-breaker
ceiling: the buffer is discarded, the counter incremented, and no token is
returned. -/
theorem flush_breaker (st : SSEParser) (hnw : jsTrim st.buffer ≠ "")
    (hlen : 100000 < st.buffer.data.length + 1) :
    flush st = (⟨"", st.errorCount + 1⟩, []) := by
  have hbrk : parseChunk st "\n" = (⟨"", st.errorCount + 1⟩, .ok []) := by
    apply parseChunk_breaker_lem
    rw [strData_append, List.length_append, nl_data]
    simpa using hlen
  have hok := flush_of_ok st [] hnw (by rw [hbrk])
  rw [hok, hbrk]

theorem bigBufX_len : bigBufX.data.length = 100001 := by
  show (List.replicate 100001 'x').length = 100001
  exact List.length_replicate 100001 'x'

theorem jsTrim_bigBufX : jsTrim bigBufX ≠ "" := by
  intro h
  have hmem : 'x' ∈ bigBufX.data := by
    show 'x' ∈ List.replicate 100001 'x'
    exact List.mem_replicate.mpr ⟨by norm_num, rfl⟩
  have hx := (jsTrim_empty_iff bigBufX).mp h 'x' hmem
  exact absurd hx (by decide)

/-- An object payload lacking the expected shape never yields a token. -/
theorem extractContent_none_of_no_shape (j : Json) (h : hasExpectedShape j = false) :
    extractContent j = none := by
  cases hch : getProp j "choices" with
  | none => simp [extractContent, hch]
  | some choices =>
    cases choices with
    | null => simp [extractContent, hch, truthy, isArr]
    | bool b => simp [extractContent, hch, isArr]
    | num n => simp [extractContent, hch, isArr]
    | str s => simp [extractContent, hch, isArr]
    | obj fs => simp [extractContent, hch, isArr]
    | arr elems =>
      cases elems with
      | nil => simp [extractContent, hch, truthy, isArr, getIdx]
      | cons first rest =>
        have hsh : (match getProp first "delta" with
                    | some (Json.obj _) => true
                    | _ => false) = false := by
          unfold hasExpectedShape at h
          rw [hch] at h
          exact h
        rw [extractContent, hch]
        dsimp only
        rw [if_pos (⟨rfl, rfl⟩ : truthy (Json.arr (first :: rest)) = true
              ∧ isArr (Json.arr (first :: rest)) = true)]
        rw [(by simp [getIdx] : getIdx (Json.arr (first :: rest)) 0 = some first)]
        dsimp only
        by_cases htf : truthy first = true
        · rw [if_pos htf]
          cases hd : getProp first "delta" with
          | none => rfl
          | some delta =>
            rw [hd] at hsh
            dsimp only
            cases delta with
            | obj dfs => simp at hsh
            | null => rw [if_neg (by simp [truthy])]
            | bool b => rw [if_neg (by simp [isObjType])]
            | num n => rw [if_neg (by simp [isObjType])]
            | str s => rw [if_neg (by simp [isObjType])]
            | arr es =>
              rw [if_pos (⟨rfl, rfl⟩ : truthy (Json.arr es) = true
                    ∧ isObjType (Json.arr es) = true)]
              rfl
        · rw [if_neg htf]

/-! ## Claim theorems -/

/-- C1, counterexample to the claim as stated: `streamT1` is a single
well-formed event-stream text (one data line carrying `A`, then blank
lines) of 100,005 characters.  Fed as one chunk, the circuit breaker
discards everything and the session emits no token; fed as two chunks the
session emits `["A"]`.  Token output is therefore not invariant under the
chunk segmentation. -/
theorem C1_counterexample :
    strConc [streamT1] = streamT1 ∧
    strConc [goodA ++ "\n", padNl 99959] = streamT1 ∧
    wellFormedStream streamT1 ∧
    sessionTokens [streamT1] = [] ∧
    sessionTokens [goodA ++ "\n", padNl 99959] = ["A"] := by
  have h1 : strConc [streamT1] = streamT1 := strAppend_empty _
  refine ⟨h1, (h1 ▸ streamT1_conc).symm ▸ h1, ?_, sessionTokens_T1_single,
    sessionTokens_T1_pair⟩
  · intro l hl
    unfold splitSegs at hl
    rw [streamT1_split] at hl
    dsimp only at hl
    rcases List.mem_append.mp hl with h | h
    · rcases List.mem_cons.mp h with rfl | h
      · show lineBad (String.mk goodA.data) = false
        rw [strMk_data]
        decide
      · rw [(List.mem_replicate.mp h).2]
        decide
    · rw [List.mem_singleton.mp h]
      decide

/-- C1 (amended): for a well-formed event-stream text of at most 100,000
characters — the circuit-breaker ceiling, which the counterexample shows is
necessary — the token output of a fresh extractor is invariant under the
chunk segmentation. -/
theorem C1_theorem (chunks₁ chunks₂ : List String)
    (heq : strConc chunks₁ = strConc chunks₂)
    (hlen : (strConc chunks₁).data.length ≤ 100000)
    (hwf : wellFormedStream (strConc chunks₁)) :
    sessionTokens chunks₁ = sessionTokens chunks₂ := by
  have hwfL : ∀ l ∈ (splitLines (strConc chunks₁).data).1, lineBad (String.mk l) = false :=
    fun l hl => hwf l (List.mem_append_left _ hl)
  have hlen2 : (strConc chunks₂).data.length ≤ 100000 := by rw [← heq]; exact hlen
  have hwfL2 : ∀ l ∈ (splitLines (strConc chunks₂).data).1, lineBad (String.mk l) = false := by
    rw [← heq]; exact hwfL
  have h1 := feedAll_fresh chunks₁ hlen hwfL
  have h2 := feedAll_fresh chunks₂ hlen2 hwfL2
  rw [sessionTokens_def, sessionTokens_def, h1, h2, heq]

/-- Witness for C1 (amended): splitting the `A` data line in the middle of
its JSON record yields the same tokens as feeding it whole. -/
theorem C1_witness :
    sessionTokens [goodA ++ "\n"] =
      sessionTokens ["data: \x7b\"choi", "ces\":[\x7b\"delta\":\x7b\"content\":\"A\"\x7d\x7d]\x7d\n"] :=
  C1_theorem _ _ (by decide) (by decide) (by unfold wellFormedStream; decide)

/-- C2, counterexample to the claim as stated: `streamT2` is a well-formed
stream whose `delta.content` concatenation is `B`, but at 100,005
characters a single `consume` call trips the circuit breaker and the
session reconstructs the empty string instead. -/
theorem C2_counterexample :
    wellFormedStream streamT2 ∧
    strConc [streamT2] = streamT2 ∧
    strJoin (sessionTokens [streamT2]) = "" ∧
    specDeltaConcat streamT2 = "B" ∧ ("" : String) ≠ "B" := by
  refine ⟨streamT2_wf, strAppend_empty _, ?_, specDeltaConcat_T2, by decide⟩
  rw [sessionTokens_T2_single]
  rfl

/-- C2 (amended): for well-formed streams strictly below the 100,000
character circuit-breaker ceiling (necessary by the counterexample),
concatenating all tokens of `consume` calls plus the final `flush` equals
the concatenation of the `delta.content` values of the stream's data lines;
`[DONE]`, comment and blank lines contribute nothing and the error counter
ends at zero. -/
theorem C2_theorem (chunks : List String)
    (hlen : (strConc chunks).data.length < 100000)
    (hwf : wellFormedStream (strConc chunks)) :
    strJoin (sessionTokens chunks) = specDeltaConcat (strConc chunks) ∧
      (flush (feedAll ⟨"", 0⟩ chunks).1).1.errorCount = 0 :=
  session_roundtrip chunks hlen hwf

/-- Witness for C2 (amended): a session with a comment line, a data line
and a `[DONE]` sentinel, split across chunk boundaries. -/
theorem C2_witness :
    strJoin (sessionTokens [": hb\n" ++ "data: ", "\x7b\"choi",
        "ces\":[\x7b\"delta\":\x7b\"content\":\"A\"\x7d\x7d]\x7d\ndata: [DONE]\n"]) =
      specDeltaConcat (strConc [": hb\n" ++ "data: ", "\x7b\"choi",
        "ces\":[\x7b\"delta\":\x7b\"content\":\"A\"\x7d\x7d]\x7d\ndata: [DONE]\n"]) ∧
    (flush (feedAll ⟨"", 0⟩ [": hb\n" ++ "data: ", "\x7b\"choi",
        "ces\":[\x7b\"delta\":\x7b\"content\":\"A\"\x7d\x7d]\x7d\ndata: [DONE]\n"]).1).1.errorCount = 0 :=
  C2_theorem _ (by decide) (by unfold wellFormedStream; decide)

/-- C3, counterexample to the claim as stated: `badTen` drives the error
counter to the ceiling and `parseChunk` raises the fatal decoding failure,
but the relay catches it and keeps processing: the next chunk's token `C`
still reaches the caller, so the relay does not abort the overall stream. -/
theorem C3_counterexample :
    (parseChunk ⟨"", 0⟩ badTen).2 = Except.error () ∧
    relayRun [badTen, goodC ++ "\n"] = ["C"] :=
  ⟨rfl, rfl⟩

/-- C3 (amended): when the error counter reaches the ceiling the
`parseChunk` call raises the fatal decoding failure, and the relay then
catches it, keeps every token already forwarded from earlier chunks,
forwards nothing for the failing call, and continues with the subsequent
chunks rather than aborting. -/
theorem C3_theorem (st : SSEParser) (pre c : String) (cs : List String)
    (toks : List String)
    (hok : (parseChunk st pre).2 = Except.ok toks)
    (herr : (parseChunk (parseChunk st pre).1 c).2 = Except.error ()) :
    relayAux st (pre :: c :: cs) =
      toks.filter sendTok ++ relayAux (parseChunk (parseChunk st pre).1 c).1 cs := by
  rw [relayAux_cons_ok st pre _ toks hok, relayAux_cons_err _ c cs herr]

/-- Witness for C3 (amended): a good chunk, then ten malformed lines, then
another good chunk; the output keeps `A` and continues with `C`. -/
theorem C3_witness :
    relayRun [goodA ++ "\n", badTen, goodC ++ "\n"] = ["A", "C"] := by
  show relayAux ⟨"", 0⟩ ((goodA ++ "\n") :: badTen :: [goodC ++ "\n"]) = _
  have h := C3_theorem ⟨"", 0⟩ (goodA ++ "\n") badTen [goodC ++ "\n"] ["A"] rfl rfl
  rw [h]
  rfl

/-- C4, counterexample to the claim as stated: after one unparsable payload
(counter 1) the payload `\x7b\x7d` parses as JSON to an object lacking the
expected shape; the claim predicts a second increment (counter 2) and a
reset only on successful extraction, but the code treats the shape-lacking
object as structural success and resets the counter to 0 with no token. -/
theorem C4_counterexample :
    (parseChunk ⟨"", 0⟩ "data: nope\ndata: \x7b\x7d\n").1.errorCount = 0 ∧
    (parseChunk ⟨"", 0⟩ "data: nope\ndata: \x7b\x7d\n").2 = Except.ok [] :=
  ⟨rfl, rfl⟩

/-- C4 (amended): a complete `data: ` line increments the error counter by
one exactly when its payload fails to parse as JSON or parses to a falsy or
non-object value (below the ceiling this is non-fatal); every payload
parsing to an object is a structural success that resets the counter to
zero, its token being whatever the extraction chain yields — and whenever
the object lacks the expected shape (a non-empty `choices` array whose
first element has an object-valued `delta` field) that yield is no token at
all. -/
theorem C4_theorem :
    (∀ (ec : Nat) (d : String), jsonParse d = none → d ≠ "[DONE]" → ec + 1 < 10 →
       processLine ec ("data: " ++ d) = Except.ok (ec + 1, [])) ∧
    (∀ (ec : Nat) (d : String) (j : Json), jsonParse d = some j →
       (truthy j = false ∨ isObjType j = false) → ec + 1 < 10 →
       processLine ec ("data: " ++ d) = Except.ok (ec + 1, [])) ∧
    (∀ (ec : Nat) (d : String) (fields : List (String × Json)),
       jsonParse d = some (Json.obj fields) →
       processLine ec ("data: " ++ d) =
         Except.ok (0, (extractContent (Json.obj fields)).toList)) ∧
    (∀ j : Json, hasExpectedShape j = false → extractContent j = none) := by
  refine ⟨?_, ?_, ?_, extractContent_none_of_no_shape⟩
  · intro ec d hj hd hlt
    rw [processLine_data ec d hd]
    have hpe : parseAndExtract d = Except.error () := by
      unfold parseAndExtract
      rw [hj]
    rw [hpe]
    dsimp only
    rw [if_neg (by unfold maxErrors; omega)]
  · intro ec d j hj hfls hlt
    have hd : d ≠ "[DONE]" := by
      intro h
      rw [h, jsonParse_done] at hj
      exact Option.noConfusion hj
    rw [processLine_data ec d hd]
    have hpe : parseAndExtract d = Except.error () := by
      unfold parseAndExtract
      rw [hj]
      dsimp only
      rw [if_pos hfls]
    rw [hpe]
    dsimp only
    rw [if_neg (by unfold maxErrors; omega)]
  · intro ec d fields hj
    have hd : d ≠ "[DONE]" := by
      intro h
      rw [h, jsonParse_done] at hj
      exact Option.noConfusion hj
    rw [processLine_data ec d hd]
    have hpe : parseAndExtract d = Except.ok (extractContent (Json.obj fields)) := by
      unfold parseAndExtract
      rw [hj]
      dsimp only
      rw [if_neg (by simp [truthy, isObjType])]
    rw [hpe]

/-- Witness for C4 (amended): an unparsable payload increments the counter
to 1; a `choices` array whose first element is an empty object lacks the
shape, yields no token, and resets a counter of 7 to 0. -/
theorem C4_witness :
    processLine 0 ("data: " ++ "nope") = Except.ok (1, []) ∧
    processLine 7 ("data: " ++ "\x7b\"choices\":[\x7b\x7d]\x7d") = Except.ok (0, []) ∧
    extractContent (Json.obj [("choices", Json.arr [Json.obj []])]) = none := by
  refine ⟨C4_theorem.1 0 "nope" rfl (by decide) (by decide), ?_, ?_⟩
  · have h := C4_theorem.2.2.1 7 "\x7b\"choices\":[\x7b\x7d]\x7d"
      [("choices", Json.arr [Json.obj []])] rfl
    exact h.trans rfl
  · exact C4_theorem.2.2.2 (Json.obj [("choices", Json.arr [Json.obj []])]) rfl

/-- C5, counterexample to the claim as stated: on an upstream 429 the relay
does return a `RATE_LIMIT` error without retrying, but its HTTP status is
the fixed 400, not the upstream's own 429 as the claim asserts. -/
theorem C5_counterexample :
    routeModel "hello" true (fun _ => Except.ok 429) [] =
      (RouteResult.errorResp "RATE_LIMIT" 400, 1) ∧ (400 : Nat) ≠ 429 :=
  ⟨rfl, by decide⟩

/-- C5 (amended): when the upstream responds 429 on the first attempt, the
relay makes exactly one upstream call (no retry) and returns a structured
`RATE_LIMIT` error with HTTP status 400 before any bytes are streamed. -/
theorem C5_theorem (p : String) (resp : Nat → Except Unit Nat) (chunks : List String)
    (hv : validatePrompt p = none) (h429 : resp 0 = Except.ok 429) :
    routeModel p true resp chunks = (.errorResp "RATE_LIMIT" 400, 1) := by
  have hf := fetch_429_once resp h429
  have h := routeModel_upstream_error p resp chunks 429 1 [] hv hf (by norm_num)
  rw [h]
  norm_num [upstreamErrorCode]

/-- Witness for C5 (amended) at a concrete prompt and transport. -/
theorem C5_witness :
    routeModel "hi" true (fun _ => Except.ok 429) ["x"] =
      (RouteResult.errorResp "RATE_LIMIT" 400, 1) :=
  C5_theorem "hi" (fun _ => Except.ok 429) ["x"] rfl rfl

/-- C6: when every attempt returns upstream 500, `fetchWithRetry` makes the
initial call plus exactly 3 retries (4 calls), sleeping the exponentially
doubling delays 1000, 2000, 4000 ms, and the relay then returns a final
`UPSTREAM_SERVER_ERROR` with a 502 status. -/
theorem C6_theorem (resp : Nat → Except Unit Nat)
    (h : ∀ i, i ≤ 3 → resp i = Except.ok 500) :
    fetchWithRetryModel resp = ⟨Except.ok 500, 4, [1000, 2000, 4000]⟩ ∧
    (∀ (p : String) (chunks : List String), validatePrompt p = none →
       routeModel p true resp chunks = (.errorResp "UPSTREAM_SERVER_ERROR" 502, 4)) := by
  have hf := fetch_500_exhausts resp (h 0 (by norm_num)) (h 1 (by norm_num))
    (h 2 (by norm_num)) (h 3 (by norm_num))
  refine ⟨hf, fun p chunks hv => ?_⟩
  have hr := routeModel_upstream_error p resp chunks 500 4 [1000, 2000, 4000] hv hf
    (by norm_num)
  rw [hr]
  norm_num [upstreamErrorCode]

/-- Witness for C6 at a concrete transport that always answers 500. -/
theorem C6_witness :
    fetchWithRetryModel (fun _ => Except.ok 500) =
      ⟨Except.ok 500, 4, [1000, 2000, 4000]⟩ ∧
    routeModel "hi" true (fun _ => Except.ok 500) [] =
      (RouteResult.errorResp "UPSTREAM_SERVER_ERROR" 502, 4) := by
  have h := C6_theorem (fun _ => Except.ok 500) (fun i _ => rfl)
  exact ⟨h.1, h.2 "hi" [] rfl⟩

/-- C7: a prompt that is empty after trimming or longer than 10,000
characters is rejected with an `INVALID_PROMPT` error carrying status 400,
and zero upstream calls are made. -/
theorem C7_theorem (p : String) (apiKey : Bool) (resp : Nat → Except Unit Nat)
    (chunks : List String) (h : jsTrim p = "" ∨ 10000 < p.length) :
    routeModel p apiKey resp chunks = (.errorResp "INVALID_PROMPT" 400, 0) :=
  routeModel_invalid p apiKey resp chunks (validatePrompt_rejects p h)

/-- Witness for C7: a whitespace-only prompt is rejected with no upstream
call. -/
theorem C7_witness :
    routeModel "   " true (fun _ => Except.ok 200) ["x"] =
      (RouteResult.errorResp "INVALID_PROMPT" 400, 0) :=
  C7_theorem "   " true (fun _ => Except.ok 200) ["x"] (Or.inl (by decide))

/-- C8, counterexample to the claim as stated: `bigLine` is a reachable
buffer state (one 100,000-character newline-free chunk leaves it buffered
without tripping the strict `>` breaker) holding a non-whitespace,
well-formed data line whose tokens, treating it as complete, are `["Z"]`;
yet `flush` trips the circuit breaker on the appended newline and returns
no tokens at all, so `flush` does not return the tokens of the partial last
line treated as complete. -/
theorem C8_counterexample :
    parseChunk ⟨"", 0⟩ bigLine = (⟨bigLine, 0⟩, Except.ok []) ∧
    jsTrim bigLine ≠ "" ∧
    processLine 0 bigLine = Except.ok (0, ["Z"]) ∧
    flush ⟨bigLine, 0⟩ = (⟨"", 1⟩, []) ∧
    (["Z"] : List String) ≠ [] := by
  refine ⟨parseChunk_bigLine, jsTrim_bigLine, processLine_bigLine 0, ?_, by decide⟩
  have h := flush_breaker ⟨bigLine, 0⟩ jsTrim_bigLine
    (by show 100000 < bigLine.data.length + 1; rw [bigLine_len]; norm_num)
  exact h

/-- C8 (amended): `flush` on a whitespace-only buffer returns no tokens and
leaves the state alone; on a buffered partial line strictly under the
100,000-character ceiling it returns exactly the tokens of that line
treated as complete; at or above the ceiling (necessary by the
counterexample) the newline appended by `flush` trips the circuit breaker,
so `flush` discards the buffer, increments the counter and returns no
tokens; and when the internal re-run of `parseChunk` raises, `flush`
swallows the error and returns no tokens instead of propagating it. -/
theorem C8_theorem (st : SSEParser) :
    (jsTrim st.buffer = "" → flush st = (st, [])) ∧
    (∀ (ec' : Nat) (toks : List String), jsTrim st.buffer ≠ "" →
       '\n' ∉ st.buffer.data → st.buffer.data.length + 1 ≤ 100000 →
       processLine st.errorCount st.buffer = Except.ok (ec', toks) →
       flush st = (⟨"", ec'⟩, toks)) ∧
    (jsTrim st.buffer ≠ "" → 100000 < st.buffer.data.length + 1 →
       flush st = (⟨"", st.errorCount + 1⟩, [])) ∧
    (jsTrim st.buffer ≠ "" → (parseChunk st "\n").2 = Except.error () →
       flush st = ((parseChunk st "\n").1, [])) :=
  ⟨flush_ws st,
   fun ec' toks hnw hnl hlen hok => flush_line st ec' toks hnw hnl hlen hok,
   fun hnw hlen => flush_breaker st hnw hlen,
   fun hnw herr => flush_of_error st hnw herr⟩

/-- Witness for C8 (amended): a whitespace buffer flushes to nothing; an
unterminated `A` data line flushes to `["A"]` resetting the counter; an
over-ceiling newline-free buffer flushes to nothing with the counter
incremented; a buffer whose forced line drives the counter to the ceiling
flushes to no tokens despite the internal throw. -/
theorem C8_witness :
    flush ⟨"  ", 3⟩ = (⟨"  ", 3⟩, []) ∧
    flush ⟨goodA, 5⟩ = (⟨"", 0⟩, ["A"]) ∧
    flush ⟨bigBufX, 7⟩ = (⟨"", 8⟩, []) ∧
    flush ⟨"data: x", 9⟩ = (⟨"", 10⟩, []) := by
  have h1 := C8_theorem ⟨"  ", 3⟩
  have h2 := C8_theorem ⟨goodA, 5⟩
  have h3 := C8_theorem ⟨bigBufX, 7⟩
  have h4 := C8_theorem ⟨"data: x", 9⟩
  refine ⟨h1.1 (by decide), ?_, ?_, ?_⟩
  · exact h2.2.1 0 ["A"] (by decide) (by decide) (by decide) rfl
  · refine h3.2.2.1 jsTrim_bigBufX ?_
    show 100000 < bigBufX.data.length + 1
    rw [bigBufX_len]
    norm_num
  · exact (h4.2.2.2 (by decide) rfl).trans rfl

/-- C9: whenever appending the chunk makes the pending buffer longer than
100,000 characters (in particular with no newline, so no complete line is
available), `parseChunk` discards the entire buffer, increments the error
counter by one and returns no tokens. -/
theorem C9_theorem (st : SSEParser) (chunk : String)
    (hlen : 100000 < (st.buffer ++ chunk).data.length)
    (_hnl : '\n' ∉ (st.buffer ++ chunk).data) :
    parseChunk st chunk = (⟨"", st.errorCount + 1⟩, Except.ok []) :=
  parseChunk_breaker_lem st chunk hlen

/-- Witness for C9: a 100,001-character newline-free buffer trips the
breaker. -/
theorem C9_witness : parseChunk ⟨bigBufX, 4⟩ "" = (⟨"", 5⟩, Except.ok []) := by
  have hlen : 100000 < ((⟨bigBufX, 4⟩ : SSEParser).buffer ++ "").data.length := by
    show 100000 < (bigBufX ++ "").data.length
    rw [strAppend_empty]
    show 100000 < (List.replicate 100001 'x').length
    rw [List.length_replicate]
    norm_num
  have hnl : '\n' ∉ ((⟨bigBufX, 4⟩ : SSEParser).buffer ++ "").data := by
    show '\n' ∉ (bigBufX ++ "").data
    rw [strAppend_empty]
    intro h
    have := (List.mem_replicate.mp h).2
    exact absurd this (by decide)
  exact C9_theorem ⟨bigBufX, 4⟩ "" hlen hnl

/-- C10: in the streaming phase the relay forwards exactly those extracted
tokens passing the `token && token.trim()` guard, and that guard holds
precisely when the token contains at least one non-whitespace character, so
whitespace-only tokens are silently dropped. -/
theorem C10_theorem :
    (∀ (st : SSEParser) (c : String) (cs : List String) (toks : List String),
       (parseChunk st c).2 = Except.ok toks →
       relayAux st (c :: cs) = toks.filter sendTok ++ relayAux (parseChunk st c).1 cs) ∧
    (∀ t : String, sendTok t = true ↔ ∃ ch ∈ t.data, jsWsChar ch = false) :=
  ⟨relayAux_cons_ok, sendTok_iff⟩

/-- Witness for C10: the extractor emits the whitespace-only token
`"\n\n"`, the guard rejects it, and the relay forwards nothing. -/
theorem C10_witness :
    (parseChunk ⟨"", 0⟩ (wsLine ++ "\n")).2 = Except.ok ["\n\n"] ∧
    relayRun [wsLine ++ "\n"] = [] ∧ sendTok "\n\n" = false := by
  refine ⟨rfl, ?_, by decide⟩
  show relayAux ⟨"", 0⟩ ((wsLine ++ "\n") :: []) = []
  have h := C10_theorem.1 ⟨"", 0⟩ (wsLine ++ "\n") [] ["\n\n"] rfl
  rw [h]
  rfl
